import Mathlib

/-!
# vpc-import-cli: a shallow embedding of the identifier-mapping layer

The Go program reads a CloudFormation stack and either writes a
`terraform.tfvars.json` file (`genvars`) or computes, for every resource of the
stack, the identifier string that `terraform import` expects (`tf_import`).

Conventions of the embedding

* A Go pointer field of an SDK record (`*string`, `*int32`, `*bool`) is an
  `Option`; dereferencing `nil` is the fault `Fault.nilDereference`.
* Indexing a slice out of range is the fault `Fault.indexOutOfRange`.
* `log.Fatal` (also through `common.Check`) is the fault `Fault.fatal`.
* A Go `map[string]string` is a finite function `String → Option String`;
  reading a missing key gives the zero value `""`.
* The AWS clients are records of query functions (the read-only control plane);
  the Route53 Resolver client also records every request it is sent, so that
  "this name is never looked up" can be stated.
* The filesystem is explicit state.
-/

namespace VpcImportCli

/-! ## Faults and Go primitives -/

/-- The ways in which the Go process stops without returning a value. -/
inductive Fault where
  | nilDereference
  | indexOutOfRange
  | fatal (msg : String)
deriving DecidableEq

deriving instance DecidableEq for Except

/-- Go's `*p` on a pointer field. -/
def deref {α : Type} : Option α → Except Fault α
  | some a => .ok a
  | none => .error .nilDereference

/-- Go's `xs[0]`. -/
def index0 {α : Type} : List α → Except Fault α
  | a :: _ => .ok a
  | [] => .error .indexOutOfRange

/-- Go's `strconv.Itoa`: the decimal representation of an integer. -/
def Itoa (i : Int) : String := toString i

/-- A Go `map[string]string`. -/
structure GoMap where
  entry : String → Option String

namespace GoMap

/-- The literal `map[string]string{}`. -/
def empty : GoMap := ⟨fun _ => none⟩

/-- Go's `m[k]` as an expression: the zero value `""` when `k` is not a key. -/
def get (m : GoMap) (k : String) : String := (m.entry k).getD ""

/-- Go's `m[k] = v`. -/
def set (m : GoMap) (k v : String) : GoMap :=
  ⟨fun x => if x = k then some v else m.entry x⟩

/-- Whether `k` is a key of `m`. -/
def hasKey (m : GoMap) (k : String) : Prop := m.entry k ≠ none

instance (m : GoMap) (k : String) : Decidable (m.hasKey k) := by
  unfold hasKey; infer_instance

end GoMap

/-! ## package common -/

/-- `common.Check` applied to the `err` of a call returning `(output, err)`:
a non-nil error is `log.Fatal`, otherwise the output is used. -/
def Check {α : Type} : Except String α → Except Fault α
  | .ok a => .ok a
  | .error e => .error (.fatal e)

def ResolverRuleTldLegacy : String := "MSKCC TLD"
def ResolverRuleTldIac : String := "hccp-mskcc-tld-rule"
def ResolverRuleCrossVpcLegacy : String := "AWS subdomain for cross VPC resolution"
def ResolverRuleCrossVpcIac : String := "hccp-cross-vpc-rule"
def ResolverRuleInternet : String := "Internet Resolver"

/-- The fields of `cloudformation/types.Parameter` the program reads. -/
structure Parameter where
  ParameterKey : Option String
  ParameterValue : Option String
  ResolvedValue : Option String
deriving DecidableEq

/-- The fields of `cloudformation/types.Tag`. -/
structure Tag where
  Key : Option String
  Value : Option String
deriving DecidableEq

/-- The fields of `cloudformation/types.Stack` the program reads. -/
structure Stack where
  Parameters : List Parameter
  Tags : List Tag
deriving DecidableEq

/-- The output of `DescribeStacks`. -/
structure DescribeStacksOutput where
  Stacks : List Stack
deriving DecidableEq

/-- The fields of `cloudformation/types.StackResource` the program reads. -/
structure StackResource where
  LogicalResourceId : Option String
  PhysicalResourceId : Option String
deriving DecidableEq

/-- The output of `DescribeStackResources`. -/
structure DescribeStackResourcesOutput where
  StackResources : List StackResource
deriving DecidableEq

/-- The fields of `ec2/types.SecurityGroupRule` the program reads. -/
structure SecurityGroupRule where
  GroupId : Option String
  IsEgress : Option Bool
  IpProtocol : Option String
  FromPort : Option Int
  ToPort : Option Int
  CidrIpv4 : Option String
deriving DecidableEq

/-- The fields of `ec2/types.Vpc` the program reads. -/
structure Vpc where
  DhcpOptionsId : Option String
  CidrBlock : Option String
deriving DecidableEq

/-- The fields of `ec2/types.NetworkAcl` the program reads. -/
structure NetworkAcl where
  NetworkAclId : Option String
deriving DecidableEq

/-- The fields of `route53resolver/types.ResolverRule` the program reads. -/
structure ResolverRule where
  Id : Option String
deriving DecidableEq

/-- The fields of `route53resolver/types.ResolverRuleAssociation` the program reads. -/
structure ResolverRuleAssociation where
  Id : Option String
  Name : Option String
  ResolverRuleId : Option String
deriving DecidableEq

/-- The EC2 client: each query the program sends, as a function of the filter
values it passes; `.error` is the `err` of the SDK call. -/
structure Ec2Client where
  DescribeSecurityGroupRules : String → Except String (List SecurityGroupRule)
  DescribeVpcs : String → Except String (List Vpc)
  DescribeNetworkAcls : String → Except String (List NetworkAcl)

/-- The Route53 Resolver client: `ListResolverRules` filtered by `Name`, and
`ListResolverRuleAssociations` filtered by `VPCId` and `ResolverRuleId`. -/
structure Route53ResolverClient where
  ListResolverRules : String → Except String (List ResolverRule)
  ListResolverRuleAssociations : String → String → Except String (List ResolverRuleAssociation)

/-- A request sent to the Route53 Resolver service. -/
inductive Request where
  | listResolverRules (name : String)
  | listResolverRuleAssociations (vpcId ruleId : String)
deriving DecidableEq

/-- Computations that talk to the Route53 Resolver service: they may stop with a
fault, and they append every request sent to a log. -/
def Resolver (α : Type) : Type := List Request → Except Fault (α × List Request)

/-- Sequencing of `Resolver` computations. -/
def Resolver.bind {α β : Type} (x : Resolver α) (f : α → Resolver β) : Resolver β :=
  fun log =>
    match x log with
    | .ok (a, log1) => f a log1
    | .error e => .error e

/-- A computation that sends nothing. -/
def Resolver.lift {α : Type} (x : Except Fault α) : Resolver α :=
  fun log =>
    match x with
    | .ok a => .ok (a, log)
    | .error e => .error e

/-- Send a request: it is appended to the log. -/
def Resolver.send (r : Request) : Resolver Unit :=
  fun log => .ok ((), log ++ [r])

instance : Monad Resolver where
  pure a := fun log => .ok (a, log)
  bind := Resolver.bind

instance : MonadLift (Except Fault) Resolver where
  monadLift := Resolver.lift

/-- `common.GetDhcpOptionsIdFromVpc`. -/
def GetDhcpOptionsIdFromVpc (ec2 : Ec2Client) (physicalResourceId : String) :
    Except Fault String := do
  let output ← Check (ec2.DescribeVpcs physicalResourceId)
  let vpc ← index0 output
  deref vpc.DhcpOptionsId

/-- `common.getResolverRuleId`. -/
def getResolverRuleId (client : Route53ResolverClient) (resolver_rule_name : String) :
    Resolver String := do
  Resolver.send (.listResolverRules resolver_rule_name)
  let output ← Check (client.ListResolverRules resolver_rule_name)
  let rule ← index0 output
  deref rule.Id

/-- `common.GetResolverRuleAssociation`; `none` is Go's `nil` result. -/
def GetResolverRuleAssociation (client : Route53ResolverClient) (vpcId : String)
    (resolver_rule_name : String) : Resolver (Option ResolverRuleAssociation) := do
  let resolverRuleId ← getResolverRuleId client resolver_rule_name
  Resolver.send (.listResolverRuleAssociations vpcId resolverRuleId)
  let output ← Check (client.ListResolverRuleAssociations vpcId resolverRuleId)
  match output with
  | rule :: _ => pure (some rule)
  | [] => pure none

/-- The lookup of one resolver-rule category, as both `mapTfResourceIdsToPhysicalIds`
and `mapResolverRuleDetailsToTfvars` write it: `assoc := GetResolverRuleAssociation(.., current)`
followed by `if assoc == nil { assoc = GetResolverRuleAssociation(.., legacy) }`. -/
def lookupCurrentThenLegacy (client : Route53ResolverClient) (vpcId current legacy : String) :
    Resolver (Option ResolverRuleAssociation) := do
  let assoc ← GetResolverRuleAssociation client vpcId current
  match assoc with
  | none => GetResolverRuleAssociation client vpcId legacy
  | some a => pure (some a)

/-- `common.Filter`, with a predicate that may itself fault (it dereferences). -/
def Filter {A : Type} : List A → (A → Except Fault Bool) → Except Fault (List A)
  | [], _ => .ok []
  | element :: rest, f => do
    let keep ← f element
    let output ← Filter rest f
    if keep then pure (element :: output) else pure output

/-- `common.GetParameter`. -/
def GetParameter (stacksOutput : DescribeStacksOutput) (paramKey : String) :
    Except Fault Parameter := do
  let stack ← index0 stacksOutput.Stacks
  let params := stack.Parameters
  let f := fun (param : Parameter) => do
    let key ← deref param.ParameterKey
    pure (decide (key = paramKey))
  let filtered ← Filter params f
  index0 filtered

/-- `common.GetParameterValue`. -/
def GetParameterValue (stacksOutput : DescribeStacksOutput) (paramKey : String) :
    Except Fault String := do
  let p ← GetParameter stacksOutput paramKey
  deref p.ParameterValue

/-- `common.GetParameterResolvedValue`. -/
def GetParameterResolvedValue (stacksOutput : DescribeStacksOutput) (paramKey : String) :
    Except Fault String := do
  let p ← GetParameter stacksOutput paramKey
  deref p.ResolvedValue

/-! ## package tf_import -/

/-- The static table `logicalIdToTfResourceId` (CloudFormation logical id,
terraform resource address). -/
def logicalIdToTfResourceId : List (String × String) :=
  [ ("VPC", "module.vpc.aws_vpc.main"),
    ("DhcpOptions", "module.vpc.aws_vpc_dhcp_options.main"),
    ("DefaultNacl", "module.vpc.aws_default_network_acl.main"),
    ("RouteTable", "module.vpc.aws_route_table.main"),
    ("Route", "module.vpc.aws_route.main"),
    ("SgBase", "module.vpc.aws_security_group.base"),
    ("SgBaseEgress", "module.vpc.aws_security_group_rule.base_egress"),
    ("SgBaseIngressV4", "module.vpc.aws_security_group_rule.base_ingress_v4"),
    ("Subnet1", "module.vpc.aws_subnet.subnet_1"),
    ("Subnet2", "module.vpc.aws_subnet.subnet_2"),
    ("Subnet3", "module.vpc.aws_subnet.subnet_3"),
    ("SubnetRouteAssociation1", "module.vpc.aws_route_table_association.rt_association_1"),
    ("SubnetRouteAssociation2", "module.vpc.aws_route_table_association.rt_association_2"),
    ("SubnetRouteAssociation3", "module.vpc.aws_route_table_association.rt_association_3"),
    ("TgwRoute", "module.vpc.aws_ec2_transit_gateway_route.main"),
    ("TgwAttach", "module.vpc.aws_ec2_transit_gateway_vpc_attachment.main[\x220\x22]"),
    ("TgwRouteAssocation", "module.vpc.aws_ec2_transit_gateway_route_table_association.main"),
    ("TgwRoutePropagation", "module.vpc.aws_ec2_transit_gateway_route_table_propagation.main"),
    ("TgwMSKAttachmentPropagation",
      "module.vpc.aws_ec2_transit_gateway_route_table_propagation.msk"),
    ("ResourceShare", "module.vpc.aws_ram_resource_share.vpc"),
    ("VpcDhcp", "module.vpc.aws_vpc_dhcp_options_association.main"),
    ("VpcEndpointEC2", "module.vpc.aws_vpc_endpoint.ec2"),
    ("VpcEndpointEC2Messages", "module.vpc.aws_vpc_endpoint.ec2messages"),
    ("VpcEndpointS3", "module.vpc.aws_vpc_endpoint.s3"),
    ("VpcEndpointSSM", "module.vpc.aws_vpc_endpoint.ssm"),
    ("FlowLogsVpcEnable", "module.vpc.aws_flow_log.main") ]

/-- The expression `logicalIdToTfResourceId[k]`: `""` when `k` is not a key. -/
def tfResourceIdOf (k : String) : String :=
  (logicalIdToTfResourceId.lookup k).getD ""

/-- `tf_import.formatSecurityGroupRuleId`. -/
def formatSecurityGroupRuleId (sg : SecurityGroupRule) (sg_rule_type : String) :
    Except Fault String := do
  let ipProtocol ← deref sg.IpProtocol
  let protocol := if ipProtocol = "-1" then "all" else ipProtocol
  let from_ ← deref sg.FromPort
  let fromPort := if protocol = "all" ∧ Itoa from_ = "-1" then "0" else Itoa from_
  let to_ ← deref sg.ToPort
  let toPort := if protocol = "all" ∧ Itoa to_ = "-1" then "0" else Itoa to_
  let groupId ← deref sg.GroupId
  let cidrIpv4 ← deref sg.CidrIpv4
  pure (groupId ++ "_" ++ sg_rule_type ++ "_" ++ protocol ++ "_" ++ fromPort ++ "_" ++ toPort
    ++ "_" ++ cidrIpv4)

/-- The loop of `getSecurityGroupRulePhysicalIds` over the rules returned, from
the current `(ingressId, egressId)`. -/
def classifySecurityGroupRules :
    List SecurityGroupRule → String × String → Except Fault (String × String)
  | [], ids => .ok ids
  | sg :: rest, (ingressId, egressId) => do
    let isEgress ← deref sg.IsEgress
    if !isEgress then
      let ingressId ← formatSecurityGroupRuleId sg "ingress"
      classifySecurityGroupRules rest (ingressId, egressId)
    else
      let egressId ← formatSecurityGroupRuleId sg "egress"
      classifySecurityGroupRules rest (ingressId, egressId)

/-- `tf_import.getSecurityGroupRulePhysicalIds`. -/
def getSecurityGroupRulePhysicalIds (ec2 : Ec2Client) (physicalResourceId : String) :
    Except Fault (String × String) := do
  let output ← Check (ec2.DescribeSecurityGroupRules physicalResourceId)
  classifySecurityGroupRules output ("", "")

/-- `tf_import.getDefaultNaclIdFromVpc`. -/
def getDefaultNaclIdFromVpc (ec2 : Ec2Client) (physicalResourceId : String) :
    Except Fault String := do
  let output ← Check (ec2.DescribeNetworkAcls physicalResourceId)
  let acl ← index0 output
  deref acl.NetworkAclId

/-- The first loop of `mapTfResourceIdsToPhysicalIds`: every stack resource whose
logical id has a non-empty table entry is recorded with its physical id. -/
def seedLogicalIds : List StackResource → GoMap → Except Fault GoMap
  | [], m => .ok m
  | resource :: rest, m => do
    let physicalResourceId ← deref resource.PhysicalResourceId
    let logicalResourceId ← deref resource.LogicalResourceId
    if tfResourceIdOf logicalResourceId ≠ "" then
      seedLogicalIds rest (m.set logicalResourceId physicalResourceId)
    else
      seedLogicalIds rest m

/-- The accumulator `logicalIdsToPhysicalIds` of `mapTfResourceIdsToPhysicalIds`
as it stands once the parameters are read, the stack resources are recorded
and every identifier is rewritten to the form terraform imports. -/
def logicalIdsToPhysicalIds (ec2 : Ec2Client) (stacksOutput : DescribeStacksOutput)
    (stackResourcesOutput : DescribeStackResourcesOutput) : Except Fault GoMap := do
  let vpc_ip_range ← GetParameterValue stacksOutput "IpRange"
  let tgw_route_table_id ← GetParameterResolvedValue stacksOutput "TgwRouteTableID"
  let msk_tgw_route_table_id ← GetParameterResolvedValue stacksOutput "TgwMSKRouteTableID"
  let m ← seedLogicalIds stackResourcesOutput.StackResources GoMap.empty
  let m := m.set "SubnetRouteAssociation1" (m.get "Subnet1" ++ "/" ++ m.get "RouteTable")
  let m := m.set "SubnetRouteAssociation2" (m.get "Subnet2" ++ "/" ++ m.get "RouteTable")
  let m := m.set "SubnetRouteAssociation3" (m.get "Subnet3" ++ "/" ++ m.get "RouteTable")
  let (ingressId, egressId) ← getSecurityGroupRulePhysicalIds ec2 (m.get "SgBase")
  let m := m.set "SgBaseIngressV4" ingressId
  let m := m.set "SgBaseEgress" egressId
  let dhcp ← GetDhcpOptionsIdFromVpc ec2 (m.get "VPC")
  let m := m.set "DhcpOptions" dhcp
  let nacl ← getDefaultNaclIdFromVpc ec2 (m.get "VPC")
  let m := m.set "DefaultNacl" nacl
  let m := m.set "VpcDhcp" (m.get "VPC")
  let m := m.set "Route" (m.get "RouteTable" ++ "_0.0.0.0/0")
  let m := m.set "TgwRoute" (tgw_route_table_id ++ "_" ++ vpc_ip_range)
  let m := m.set "TgwRouteAssocation" (tgw_route_table_id ++ "_" ++ m.get "TgwAttach")
  let m := m.set "TgwRoutePropagation" (tgw_route_table_id ++ "_" ++ m.get "TgwAttach")
  let m := m.set "TgwMSKAttachmentPropagation" (msk_tgw_route_table_id ++ "_" ++ m.get "TgwAttach")
  pure m

/-- The second loop of `mapTfResourceIdsToPhysicalIds`, over the table entries in
the order `range` yields them: a logical id with a non-empty value in the
accumulator is entered under its terraform address. -/
def projectToTfResourceIds (acc : GoMap) : List (String × String) → GoMap → GoMap
  | [], out => out
  | (logicalId, tfResourceId) :: rest, out =>
    if acc.get logicalId ≠ "" then
      projectToTfResourceIds acc rest (out.set tfResourceId (acc.get logicalId))
    else
      projectToTfResourceIds acc rest out

/-- Enter the id of a resolver-rule association, when there is one. -/
def setAssociationId (m : GoMap) (address : String) :
    Option ResolverRuleAssociation → Except Fault GoMap
  | none => .ok m
  | some assoc => do
    let id ← deref assoc.Id
    pure (m.set address id)

/-- `tf_import.mapTfResourceIdsToPhysicalIds`. Go iterates over a map in an
unspecified order: `order` is the order in which `range logicalIdToTfResourceId`
yields the table's entries, any permutation of the table. -/
def mapTfResourceIdsToPhysicalIds (ec2 : Ec2Client) (client : Route53ResolverClient)
    (order : List (String × String)) (stacksOutput : DescribeStacksOutput)
    (stackResourcesOutput : DescribeStackResourcesOutput) : Resolver GoMap := do
  let acc ← logicalIdsToPhysicalIds ec2 stacksOutput stackResourcesOutput
  let out := projectToTfResourceIds acc order GoMap.empty
  let internetAssoc ← GetResolverRuleAssociation client (acc.get "VPC") ResolverRuleInternet
  let tldAssoc ← lookupCurrentThenLegacy client (acc.get "VPC") ResolverRuleTldIac
    ResolverRuleTldLegacy
  let crossVpcAssoc ← lookupCurrentThenLegacy client (acc.get "VPC") ResolverRuleCrossVpcIac
    ResolverRuleCrossVpcLegacy
  let out ← setAssociationId out "module.vpc.aws_route53_resolver_rule_association.internet"
    internetAssoc
  let out ← setAssociationId out "module.vpc.aws_route53_resolver_rule_association.mskcc_tld"
    tldAssoc
  let out ← setAssociationId out "module.vpc.aws_route53_resolver_rule_association.cross_vpc"
    crossVpcAssoc
  pure out

/-! ## package genvars -/

/-- The record `genvars.TfVars`. A nil `Tags` map reads like the empty map. -/
structure TfVars where
  Tags : GoMap
  SubnetCidrBits : String
  OrganizationId : String
  DomainNameServers : List String
  DomainName : String
  IpRange : String
  MasterAccountId : String
  SharedEnvironment : String
  TransitGatewayID : String
  TgwRouteTableID : String
  TgwMSKRouteTableID : String
  VpcShareOU : String
  DhcpOptions : String
  InternetResolverRuleId : String
  CrossVpcResolverRuleId : String
  MskccTldResolverRuleId : String
  InternetResolverRuleAssocName : String
  CrossVPCResolverRuleAssocName : String
  MskccTldResolverRuleAssocName : String
  TgwAttachmentDnsSupport : String

/-- `genvars.getPhysicalResourceIdByLogicalResourceId`. -/
def getPhysicalResourceIdByLogicalResourceId :
    List StackResource → String → Except Fault String
  | [], _ => .ok ""
  | resource :: rest, targetLogicalResourceId => do
    let physicalResourceId ← deref resource.PhysicalResourceId
    let logicalResourceId ← deref resource.LogicalResourceId
    if logicalResourceId = targetLogicalResourceId then
      pure physicalResourceId
    else
      getPhysicalResourceIdByLogicalResourceId rest targetLogicalResourceId

/-- The loop of `mapTagsToTfvars`. -/
def collectTags : List Tag → GoMap → Except Fault GoMap
  | [], tags => .ok tags
  | tag :: rest, tags => do
    let key ← deref tag.Key
    let value ← deref tag.Value
    collectTags rest (tags.set key value)

/-- `genvars.mapTagsToTfvars`. -/
def mapTagsToTfvars (stacksOutput : DescribeStacksOutput) (tfvars : TfVars) :
    Except Fault TfVars := do
  let stack ← index0 stacksOutput.Stacks
  let tags ← collectTags stack.Tags GoMap.empty
  pure { tfvars with Tags := tags }

/-- The loop of `initTfVarsFromStackParams`: the resolved value of a parameter
when it has one, else its raw value. -/
def collectParams : List Parameter → GoMap → Except Fault GoMap
  | [], params => .ok params
  | param :: rest, params =>
    match param.ResolvedValue with
    | some resolved => do
      let key ← deref param.ParameterKey
      collectParams rest (params.set key resolved)
    | none => do
      let key ← deref param.ParameterKey
      let value ← deref param.ParameterValue
      collectParams rest (params.set key value)

/-- `genvars.initTfVarsFromStackParams`. -/
def initTfVarsFromStackParams (stacksOutput : DescribeStacksOutput) : Except Fault TfVars := do
  let stack ← index0 stacksOutput.Stacks
  let params ← collectParams stack.Parameters GoMap.empty
  pure {
    Tags := GoMap.empty
    SubnetCidrBits := params.get "SubnetCidrBits"
    OrganizationId := params.get "OrganizationId"
    DomainNameServers := [params.get "DomainNameServers"]
    DomainName := params.get "DomainName"
    IpRange := params.get "IpRange"
    MasterAccountId := params.get "MasterAccountId"
    SharedEnvironment := params.get "SharedEnvironment"
    TransitGatewayID := params.get "TransitGatewayID"
    TgwRouteTableID := params.get "TgwRouteTableID"
    TgwMSKRouteTableID := params.get "TgwMSKRouteTableID"
    VpcShareOU := params.get "VpcShareOU"
    DhcpOptions := params.get "DhcpOptions"
    InternetResolverRuleId := params.get "InternetResolverRuleId"
    CrossVpcResolverRuleId := params.get "CrossVpcResolverRuleId"
    MskccTldResolverRuleId := params.get "MskccTldResolverRuleId"
    InternetResolverRuleAssocName := params.get "InternetResolverRuleAssocName"
    CrossVPCResolverRuleAssocName := params.get "CrossVPCResolverRuleAssocName"
    MskccTldResolverRuleAssocName := params.get "MskccTldResolverRuleAssocName"
    TgwAttachmentDnsSupport := params.get "TgwAttachmentDnsSupport" }

/-- The update `tfvars.InternetResolverRuleAssocName, tfvars.InternetResolverRuleId = ...`
of `mapResolverRuleDetailsToTfvars`, when the association is not nil. -/
def setInternetDetails (tfvars : TfVars) : Option ResolverRuleAssociation → Except Fault TfVars
  | none => .ok tfvars
  | some assoc => do
    let name ← deref assoc.Name
    let ruleId ← deref assoc.ResolverRuleId
    pure { tfvars with InternetResolverRuleAssocName := name, InternetResolverRuleId := ruleId }

/-- The same update for the cross-VPC association. -/
def setCrossVpcDetails (tfvars : TfVars) : Option ResolverRuleAssociation → Except Fault TfVars
  | none => .ok tfvars
  | some assoc => do
    let name ← deref assoc.Name
    let ruleId ← deref assoc.ResolverRuleId
    pure { tfvars with CrossVPCResolverRuleAssocName := name, CrossVpcResolverRuleId := ruleId }

/-- The same update for the internal-TLD association. -/
def setMskccTldDetails (tfvars : TfVars) : Option ResolverRuleAssociation → Except Fault TfVars
  | none => .ok tfvars
  | some assoc => do
    let name ← deref assoc.Name
    let ruleId ← deref assoc.ResolverRuleId
    pure { tfvars with MskccTldResolverRuleAssocName := name, MskccTldResolverRuleId := ruleId }

/-- `genvars.mapResolverRuleDetailsToTfvars`. -/
def mapResolverRuleDetailsToTfvars (stackResourcesOutput : DescribeStackResourcesOutput)
    (client : Route53ResolverClient) (tfvars : TfVars) : Resolver TfVars := do
  let vpcId ← getPhysicalResourceIdByLogicalResourceId stackResourcesOutput.StackResources "VPC"
  let internetAssoc ← GetResolverRuleAssociation client vpcId ResolverRuleInternet
  let tldAssoc ← lookupCurrentThenLegacy client vpcId ResolverRuleTldIac ResolverRuleTldLegacy
  let crossVpcAssoc ← lookupCurrentThenLegacy client vpcId ResolverRuleCrossVpcIac
    ResolverRuleCrossVpcLegacy
  let tfvars ← setInternetDetails tfvars internetAssoc
  let tfvars ← setCrossVpcDetails tfvars crossVpcAssoc
  let tfvars ← setMskccTldDetails tfvars tldAssoc
  pure tfvars

/-- The first three steps of `genvars.Genvars`. -/
def genvarsRecord (client : Route53ResolverClient) (stacksOutput : DescribeStacksOutput)
    (stackResourcesOutput : DescribeStackResourcesOutput) : Resolver TfVars := do
  let tfvars ← initTfVarsFromStackParams stacksOutput
  let tfvars ← mapTagsToTfvars stacksOutput tfvars
  let tfvars ← mapResolverRuleDetailsToTfvars stackResourcesOutput client tfvars
  pure tfvars

/-- The two functions of `encoding/json` that `writeTfvarsToFile` calls:
`Marshal` (with its error) and `Indent src prefix indent` (the bytes it leaves
in the buffer). -/
structure Json where
  Marshal : TfVars → Except String String
  Indent : String → String → String → String

/-- The part of the operating system `writeTfvarsToFile` touches: the result of
`os.Getwd`, the files (path to contents) and whether `os.Create` of a path
succeeds. -/
structure FileSystem where
  Getwd : Except String String
  files : String → Option String
  creatable : String → Bool

/-- `os.Stat(name)`: the error is nil exactly when the path exists. -/
def FileSystem.Stat (fs : FileSystem) (name : String) : Except String Unit :=
  match fs.files name with
  | some _ => .ok ()
  | none => .error ("stat " ++ name ++ ": no such file or directory")

/-- Replace the contents of one path. -/
def FileSystem.write (fs : FileSystem) (name contents : String) : FileSystem :=
  { fs with files := fun p => if p = name then some contents else fs.files p }

/-- `os.Create(name)`: on success the file exists and is empty. -/
def FileSystem.Create (fs : FileSystem) (name : String) : Except String FileSystem :=
  if fs.creatable name then .ok (fs.write name "")
  else .error ("open " ++ name ++ ": permission denied")

/-- `genvars.writeTfvarsToFile`: the outcome, and the filesystem the process
leaves behind (a fatal error leaves it as it stood at that point). -/
def writeTfvarsToFile (json : Json) (tfvars : TfVars) (fs : FileSystem) :
    Except Fault Unit × FileSystem :=
  match Check (json.Marshal tfvars) with
  | .error e => (.error e, fs)
  | .ok tfvarsJson =>
    let out := json.Indent tfvarsJson "" "    "
    match Check fs.Getwd with
    | .error e => (.error e, fs)
    | .ok path =>
      let name := path ++ "/terraform.tfvars.json"
      match fs.Stat name with
      | .ok _ =>
        (.error (.fatal ("cli.go: writeTfvarsToFile(tfvars TfVars): tfvars file already exists: "
          ++ name)), fs)
      | .error _ =>
        match Check (fs.Create name) with
        | .error e => (.error e, fs)
        | .ok fs1 => (.ok (), fs1.write name out)

/-! ## What the specification says a parameter is worth -/

/-- The specification's parameter resolution rule, in its own words: for the stack
parameter with the given key, its resolved value if present, else its raw value;
the empty string when the stack has no parameter with that key. -/
def specParameterValue (params : List Parameter) (key : String) : String :=
  match params.find? (fun p => decide (p.ParameterKey = some key)) with
  | some p =>
    match p.ResolvedValue with
    | some resolved => resolved
    | none => p.ParameterValue.getD ""
  | none => ""

/-- The raw value of the stack parameter with the given key; the empty string when
the stack has no parameter with that key. -/
def rawParameterValue (params : List Parameter) (key : String) : String :=
  match params.find? (fun p => decide (p.ParameterKey = some key)) with
  | some p => p.ParameterValue.getD ""
  | none => ""

/-! ## A sample account -/

/-- Whether a computation returned. -/
def isOk {ε α : Type} : Except ε α → Bool
  | .ok _ => true
  | .error _ => false

/-- A stack description with the three parameters the import reads and one tag. -/
def sampleStacks : DescribeStacksOutput :=
  { Stacks := [
      { Parameters := [
          ⟨some "IpRange", some "10.0.0.0/16", none⟩,
          ⟨some "TgwRouteTableID", some "/tgw/route-table", some "tgw-rtb-1"⟩,
          ⟨some "TgwMSKRouteTableID", some "/tgw/msk-route-table", some "tgw-rtb-2"⟩ ],
        Tags := [⟨some "env", some "prod"⟩] } ] }

/-- Stack resources: mapped ones, an association with its own physical id, and
one logical id the table does not know. -/
def sampleResources : DescribeStackResourcesOutput :=
  { StackResources := [
      ⟨some "VPC", some "vpc-1"⟩,
      ⟨some "RouteTable", some "rtb-1"⟩,
      ⟨some "Subnet1", some "subnet-1"⟩,
      ⟨some "Subnet2", some "subnet-2"⟩,
      ⟨some "Subnet3", some "subnet-3"⟩,
      ⟨some "SubnetRouteAssociation1", some "rtbassoc-1"⟩,
      ⟨some "SgBase", some "sg-1"⟩,
      ⟨some "TgwAttach", some "tgw-attach-1"⟩,
      ⟨some "LambdaHelper", some "helper-fn"⟩ ] }

/-- An EC2 endpoint with one ingress and one egress rule, one VPC and one ACL. -/
def sampleEc2 : Ec2Client :=
  { DescribeSecurityGroupRules := fun g => .ok [
      ⟨some g, some false, some "-1", some (-1), some (-1), some "10.0.0.0/8"⟩,
      ⟨some g, some true, some "tcp", some 443, some 443, some "0.0.0.0/0"⟩ ],
    DescribeVpcs := fun _ => .ok [⟨some "dopt-1", some "10.0.0.0/16"⟩],
    DescribeNetworkAcls := fun _ => .ok [⟨some "acl-1"⟩] }

/-- A resolver endpoint where every rule name exists and only the rule named
`hccp-mskcc-tld-rule` is associated with the VPC. -/
def sampleResolver : Route53ResolverClient :=
  { ListResolverRules := fun name => .ok [⟨some ("rule:" ++ name)⟩],
    ListResolverRuleAssociations := fun _ ruleId =>
      if ruleId = "rule:hccp-mskcc-tld-rule" then
        .ok [⟨some "rslvr-rrassoc-1", some "tld", some ruleId⟩]
      else .ok [] }

/-- A resolver endpoint that lists no rule under any name. -/
def noSuchRuleResolver : Route53ResolverClient :=
  { ListResolverRules := fun _ => .ok [],
    ListResolverRuleAssociations := fun _ _ => .ok [] }

/-- A resolver endpoint where every rule name exists and no rule is associated
with any VPC. -/
def unassociatedResolver : Route53ResolverClient :=
  { ListResolverRules := fun name => .ok [⟨some ("rule:" ++ name)⟩],
    ListResolverRuleAssociations := fun _ _ => .ok [] }

/-- The stack of the specification's first end-to-end scenario: two parameters
without resolved values and one tag. -/
def scenarioStacks : DescribeStacksOutput :=
  { Stacks := [
      { Parameters := [
          ⟨some "SubnetCidrBits", some "4", none⟩,
          ⟨some "IpRange", some "10.0.0.0/16", none⟩ ],
        Tags := [⟨some "env", some "prod"⟩] } ] }

/-- A record to write. -/
def sampleTfVars : TfVars :=
  { Tags := GoMap.empty.set "env" "prod"
    SubnetCidrBits := "4"
    OrganizationId := ""
    DomainNameServers := [""]
    DomainName := ""
    IpRange := "10.0.0.0/16"
    MasterAccountId := ""
    SharedEnvironment := ""
    TransitGatewayID := ""
    TgwRouteTableID := ""
    TgwMSKRouteTableID := ""
    VpcShareOU := ""
    DhcpOptions := ""
    InternetResolverRuleId := ""
    CrossVpcResolverRuleId := ""
    MskccTldResolverRuleId := ""
    InternetResolverRuleAssocName := ""
    CrossVPCResolverRuleAssocName := ""
    MskccTldResolverRuleAssocName := ""
    TgwAttachmentDnsSupport := "" }

/-- A stand-in for `encoding/json`: the marshalled record names two of its fields,
and indenting puts the indent string in front. -/
def sampleJson : Json :=
  { Marshal := fun tfvars => .ok (tfvars.SubnetCidrBits ++ "," ++ tfvars.IpRange),
    Indent := fun src _ indent => indent ++ src }

/-- A working directory that already holds a hand-edited variables file. -/
def occupiedFileSystem : FileSystem :=
  { Getwd := .ok "/work",
    files := fun p => if p = "/work/terraform.tfvars.json" then some "hand-edited" else none,
    creatable := fun _ => true }

/-- A working directory without a variables file. -/
def freshFileSystem : FileSystem :=
  { Getwd := .ok "/work",
    files := fun p => if p = "/work/notes.txt" then some "keep" else none,
    creatable := fun _ => true }

/-- A stack without any resource record. -/
def bareResources : DescribeStackResourcesOutput :=
  { StackResources := [] }

/-- An EC2 endpoint that lists the egress rule of the base group before its ingress
rule. -/
def egressFirstEc2 : Ec2Client :=
  { DescribeSecurityGroupRules := fun g => .ok [
      ⟨some g, some true, some "tcp", some 443, some 443, some "0.0.0.0/0"⟩,
      ⟨some g, some false, some "-1", some (-1), some (-1), some "10.0.0.0/8"⟩ ],
    DescribeVpcs := fun _ => .ok [⟨some "dopt-1", some "10.0.0.0/16"⟩],
    DescribeNetworkAcls := fun _ => .ok [⟨some "acl-1"⟩] }

/-- A stack whose `TgwRouteTableID` parameter has a raw value only. -/
def unresolvedStacks : DescribeStacksOutput :=
  { Stacks := [
      { Parameters := [
          ⟨some "IpRange", some "10.0.0.0/16", none⟩,
          ⟨some "TgwRouteTableID", some "/tgw/route-table", none⟩,
          ⟨some "TgwMSKRouteTableID", some "/tgw/msk-route-table", some "tgw-rtb-2"⟩ ],
        Tags := [] } ] }

/-- The fault a computation stopped with, if it did. -/
def faultOf {ε α : Type} : Except ε α → Option ε
  | .ok _ => none
  | .error e => some e

/-- A resolver endpoint that lists the rule `Internet Resolver` and no rule under
any other name; nothing is associated with any VPC. -/
def noTldRuleResolver : Route53ResolverClient :=
  { ListResolverRules := fun name =>
      if name = "Internet Resolver" then .ok [⟨some ("rule:" ++ name)⟩] else .ok [],
    ListResolverRuleAssociations := fun _ _ => .ok [] }

/-- A resolver endpoint of an account on the legacy naming: every rule is listed
except the one named `hccp-mskcc-tld-rule`, and the rule named `MSKCC TLD` is
associated with the VPC. -/
def legacyOnlyResolver : Route53ResolverClient :=
  { ListResolverRules := fun name =>
      if name = "hccp-mskcc-tld-rule" then .ok [] else .ok [⟨some ("rule:" ++ name)⟩],
    ListResolverRuleAssociations := fun _ ruleId =>
      if ruleId = "rule:MSKCC TLD" then
        .ok [⟨some "rslvr-rrassoc-9", some "tld-legacy", some ruleId⟩]
      else .ok [] }

/-! # Lemmas and theorems -/

/-! ## Decimal representations -/

theorem ite_ne_of_ne {α : Type} (c : Prop) [Decidable c] (a b x : α) (ha : a ≠ x) (hb : b ≠ x) :
    (if c then a else b) ≠ x := by
  by_cases hc : c
  · rw [if_pos hc]; exact ha
  · rw [if_neg hc]; exact hb

theorem digitChar_ne_minus (k : Nat) : Nat.digitChar k ≠ '-' := by
  unfold Nat.digitChar
  repeat (refine ite_ne_of_ne _ _ _ _ (by decide) ?_)
  decide

theorem minus_not_mem_toDigitsCore (b f : Nat) : ∀ (n : Nat) (ds : List Char),
    '-' ∉ ds → '-' ∉ Nat.toDigitsCore b f n ds := by
  induction f with
  | zero => intro n ds h; simpa [Nat.toDigitsCore] using h
  | succ f ih =>
    intro n ds h
    simp only [Nat.toDigitsCore]
    have hd : '-' ∉ Nat.digitChar (n % b) :: ds := by
      simp only [List.mem_cons, not_or]
      exact ⟨fun e => digitChar_ne_minus _ e.symm, h⟩
    split
    · exact hd
    · exact ih _ _ hd

theorem length_le_toDigitsCore (b f : Nat) : ∀ (n : Nat) (ds : List Char),
    ds.length ≤ (Nat.toDigitsCore b f n ds).length := by
  induction f with
  | zero => intro n ds; simp [Nat.toDigitsCore]
  | succ f ih =>
    intro n ds
    simp only [Nat.toDigitsCore]
    split
    · simp
    · exact Nat.le_trans (by simp) (ih _ _)

theorem Nat_repr_eq_one (n : Nat) (h : Nat.repr n = "1") : n = 1 := by
  have h1 : Nat.toDigits 10 n = ['1'] := by
    have := congrArg String.data h
    simpa [Nat.repr, List.asString] using this
  unfold Nat.toDigits at h1
  simp only [Nat.toDigitsCore] at h1
  split at h1
  · rename_i h0
    have hn : n < 10 := by omega
    have hm : n % 10 = n := Nat.mod_eq_of_lt hn
    rw [hm] at h1
    interval_cases n <;> simp_all [Nat.digitChar]
  · have := length_le_toDigitsCore 10 n (n / 10) [Nat.digitChar (n % 10)]
    rw [h1] at this
    cases n with
    | zero => simp at *
    | succ m =>
      simp only [Nat.toDigitsCore] at h1
      split at h1
      · simp at h1
      · have := length_le_toDigitsCore 10 m ((m+1) / 10 / 10) [Nat.digitChar ((m+1) / 10 % 10), Nat.digitChar ((m+1) % 10)]
        rw [h1] at this
        simp at this

theorem Itoa_eq_neg_one (i : Int) : Itoa i = "-1" ↔ i = -1 := by
  constructor
  · intro h
    cases i with
    | ofNat n =>
      exfalso
      have h1 : Nat.toDigits 10 n = ['-', '1'] := by
        have := congrArg String.data h
        simpa [Itoa, toString, Int.repr, Nat.repr, List.asString] using this
      have := minus_not_mem_toDigitsCore 10 (n+1) n [] (by simp)
      unfold Nat.toDigits at h1
      rw [h1] at this
      simp at this
    | negSucc m =>
      have h1 : Nat.repr (m+1) = "1" := by
        have := congrArg String.data h
        simp [Itoa, toString, Int.repr] at this
        apply String.ext
        simpa using this
      have := Nat_repr_eq_one _ h1
      have : m = 0 := by omega
      subst this
      rfl
  · rintro rfl; decide

/-! ## Go maps -/

@[simp] theorem GoMap.entry_set (m : GoMap) (k v x : String) :
    (m.set k v).entry x = if x = k then some v else m.entry x := rfl

@[simp] theorem GoMap.get_set (m : GoMap) (k v x : String) :
    (m.set k v).get x = if x = k then v else m.get x := by
  unfold GoMap.get
  rw [GoMap.entry_set]
  split <;> rfl

@[simp] theorem GoMap.entry_empty (x : String) : GoMap.empty.entry x = none := rfl

@[simp] theorem GoMap.get_empty (x : String) : GoMap.empty.get x = "" := rfl

theorem GoMap.get_of_entry {m : GoMap} {k v : String} (h : m.entry k = some v) :
    m.get k = v := by
  simp [GoMap.get, h]

theorem GoMap.entry_of_get_ne {m : GoMap} {k : String} (h : m.get k ≠ "") :
    m.entry k = some (m.get k) := by
  unfold GoMap.get at *
  cases hk : m.entry k with
  | none => rw [hk] at h; exact absurd rfl h
  | some v => rfl

/-! ## Sequencing -/

theorem Except_bind_eq_ok {ε α β : Type} (x : Except ε α) (f : α → Except ε β) (b : β) :
    (x >>= f) = .ok b ↔ ∃ a, x = .ok a ∧ f a = .ok b := by
  cases x <;> simp [bind, Except.bind]

theorem Except_map_eq_ok {ε α β : Type} (x : Except ε α) (f : α → β) (b : β) :
    (f <$> x) = .ok b ↔ ∃ a, x = .ok a ∧ f a = b := by
  cases x <;> simp [Functor.map, Except.map]

theorem Except_pure_eq_ok {ε α : Type} (a b : α) :
    (pure a : Except ε α) = .ok b ↔ a = b := by
  show Except.ok a = Except.ok b ↔ _
  constructor
  · intro h; injection h
  · rintro rfl; rfl

theorem deref_eq_ok {α : Type} (o : Option α) (a : α) : deref o = .ok a ↔ o = some a := by
  cases o <;> simp [deref]

theorem index0_eq_ok {α : Type} (xs : List α) (a : α) : index0 xs = .ok a ↔ xs.head? = some a := by
  cases xs <;> simp [index0]

theorem Check_eq_ok {α : Type} (x : Except String α) (a : α) : Check x = .ok a ↔ x = .ok a := by
  cases x <;> simp [Check]

theorem Resolver.bind_run {α β : Type} (x : Resolver α) (f : α → Resolver β)
    (log : List Request) :
    (x >>= f) log = (match x log with
      | .ok (a, log1) => f a log1
      | .error e => .error e) := rfl

theorem Resolver.bind_eq_ok {α β : Type} (x : Resolver α) (f : α → Resolver β)
    (log : List Request) (r : β × List Request) :
    (x >>= f) log = .ok r ↔ ∃ a log1, x log = .ok (a, log1) ∧ f a log1 = .ok r := by
  rw [Resolver.bind_run]
  cases h : x log with
  | error e => simp
  | ok p =>
    obtain ⟨a, l⟩ := p
    constructor
    · intro hf; exact ⟨a, l, rfl, hf⟩
    · rintro ⟨a1, l1, h1, hf⟩
      injection h1 with h1
      injection h1 with ha hl
      subst ha; subst hl
      exact hf

theorem Resolver.pure_run {α : Type} (a : α) (log : List Request) :
    (pure a : Resolver α) log = .ok (a, log) := rfl

theorem Resolver.pure_eq_ok {α : Type} (a : α) (log : List Request) (r : α × List Request) :
    (pure a : Resolver α) log = .ok r ↔ r = (a, log) := by
  rw [Resolver.pure_run]
  constructor
  · intro h; injection h with h; exact h.symm
  · rintro rfl; rfl

theorem Resolver.lift_run {α : Type} (x : Except Fault α) (log : List Request) :
    (liftM x : Resolver α) log = (match x with
      | .ok a => .ok (a, log)
      | .error e => .error e) := rfl

theorem Resolver.lift_eq_ok {α : Type} (x : Except Fault α) (log : List Request)
    (r : α × List Request) :
    (liftM x : Resolver α) log = .ok r ↔ ∃ a, x = .ok a ∧ r = (a, log) := by
  rw [Resolver.lift_run]
  cases x with
  | error e => simp
  | ok a =>
    constructor
    · intro h; injection h with h; exact ⟨a, rfl, h.symm⟩
    · rintro ⟨a1, h1, rfl⟩; injection h1 with h1; subst h1; rfl

theorem Resolver.send_eq_ok (q : Request) (log : List Request) (r : Unit × List Request) :
    Resolver.send q log = .ok r ↔ r = ((), log ++ [q]) := by
  unfold Resolver.send
  constructor
  · intro h; injection h with h; exact h.symm
  · rintro rfl; rfl

/-! ## Resolver-rule lookups -/

/-- What `GetResolverRuleAssociation` returns and sends: it returns exactly when the
rule listing succeeds and is non-empty, its first rule has an id, and the
association listing for that id succeeds; the result is the first association
listed, if any, and two requests are sent. -/
theorem GetResolverRuleAssociation_eq_ok (client : Route53ResolverClient) (vpcId name : String)
    (log log1 : List Request) (a : Option ResolverRuleAssociation) :
    GetResolverRuleAssociation client vpcId name log = .ok (a, log1) ↔
      ∃ rules rule id assocs, client.ListResolverRules name = .ok rules ∧
        rules.head? = some rule ∧ rule.Id = some id ∧
        client.ListResolverRuleAssociations vpcId id = .ok assocs ∧
        a = assocs.head? ∧
        log1 = log ++ [.listResolverRules name, .listResolverRuleAssociations vpcId id] := by
  simp only [GetResolverRuleAssociation, getResolverRuleId, Resolver.bind_eq_ok,
    Resolver.lift_eq_ok, Resolver.send_eq_ok, Check_eq_ok, index0_eq_ok, deref_eq_ok]
  constructor
  · rintro ⟨id, l1, ⟨u, l2, h2, rules, l3, ⟨rules1, hr, h3⟩, rule, l4, ⟨rule1, hh, h4⟩,
      id1, hid, h5⟩, u2, l5, h6, assocs, l6, ⟨assocs1, ha, h7⟩, hm⟩
    cases h2; cases h3; cases h4; cases h5; cases h6; cases h7
    refine ⟨rules, rule, id, assocs, hr, hh, hid, ha, ?_, ?_⟩
    · cases assocs with
      | nil => rw [Resolver.pure_eq_ok] at hm; cases hm; rfl
      | cons x xs => rw [Resolver.pure_eq_ok] at hm; cases hm; rfl
    · cases assocs with
      | nil => rw [Resolver.pure_eq_ok] at hm; cases hm; simp
      | cons x xs => rw [Resolver.pure_eq_ok] at hm; cases hm; simp
  · rintro ⟨rules, rule, id, assocs, hr, hh, hid, ha, rfl, rfl⟩
    refine ⟨id, log ++ [.listResolverRules name], ⟨(), _, rfl, rules, _, ⟨rules, hr, rfl⟩,
      rule, _, ⟨rule, hh, rfl⟩, id, hid, rfl⟩, (), _, rfl, assocs, _, ⟨assocs, ha, rfl⟩, ?_⟩
    cases assocs with
    | nil => rw [Resolver.pure_eq_ok]; simp
    | cons x xs => rw [Resolver.pure_eq_ok]; simp

/-! ## The mapping table -/

theorem table_addresses_nodup : (logicalIdToTfResourceId.map Prod.snd).Nodup := by decide

theorem table_keys_nodup : (logicalIdToTfResourceId.map Prod.fst).Nodup := by decide

theorem tfResourceIdOf_ne_empty_iff (k : String) :
    tfResourceIdOf k ≠ "" ↔ k ∈ logicalIdToTfResourceId.map Prod.fst := by
  unfold tfResourceIdOf
  have hval : ∀ p ∈ logicalIdToTfResourceId, p.2 ≠ "" := by decide
  generalize logicalIdToTfResourceId = t at *
  induction t with
  | nil => simp [List.lookup]
  | cons p t ih =>
    obtain ⟨l, a⟩ := p
    have ih1 := ih (fun q hq => hval q (List.mem_cons_of_mem _ hq))
    have ha : a ≠ "" := hval (l, a) (List.mem_cons_self _ _)
    by_cases hk : k = l
    · subst hk
      simp [List.lookup, ha]
    · have hb : (k == l) = false := by simpa using hk
      simp only [List.lookup, hb, List.map_cons, List.mem_cons, hk, false_or]
      exact ih1

/-! ## Recording the stack resources -/

/-- Every key of the map after the first loop was a key before it, or is the
logical id of a stack resource with a table entry. -/
theorem seedLogicalIds_hasKey (rs : List StackResource) :
    ∀ (m m1 : GoMap), seedLogicalIds rs m = .ok m1 → ∀ k, m1.hasKey k →
      m.hasKey k ∨ (tfResourceIdOf k ≠ "" ∧ some k ∈ rs.map StackResource.LogicalResourceId) := by
  induction rs with
  | nil =>
    intro m m1 h k hk
    simp only [seedLogicalIds] at h
    cases h
    exact Or.inl hk
  | cons r rs ih =>
    intro m m1 h k hk
    simp only [seedLogicalIds, Except_bind_eq_ok, deref_eq_ok] at h
    obtain ⟨p, hp, l, hl, h⟩ := h
    by_cases ht : tfResourceIdOf l ≠ ""
    · rw [if_pos ht] at h
      rcases ih _ _ h k hk with h1 | ⟨h1, h2⟩
      · by_cases hkl : k = l
        · subst hkl
          exact Or.inr ⟨ht, by simp [hl]⟩
        · left
          simpa [GoMap.hasKey, hkl] using h1
      · exact Or.inr ⟨h1, by simp [h2]⟩
    · rw [if_neg ht] at h
      rcases ih _ _ h k hk with h1 | ⟨h1, h2⟩
      · exact Or.inl h1
      · exact Or.inr ⟨h1, by simp [h2]⟩

/-- With logical ids unique among the records, the first loop leaves under a table
key `k` the physical id that `getPhysicalResourceIdByLogicalResourceId` finds for
`k` (and leaves the entry alone when the stack has no record for `k`). -/
theorem seedLogicalIds_get (k : String) (hk : tfResourceIdOf k ≠ "") (rs : List StackResource) :
    ∀ (m m1 : GoMap), seedLogicalIds rs m = .ok m1 →
      (rs.map StackResource.LogicalResourceId).Nodup →
      ∃ v, getPhysicalResourceIdByLogicalResourceId rs k = .ok v ∧
        (some k ∈ rs.map StackResource.LogicalResourceId → m1.entry k = some v) ∧
        (some k ∉ rs.map StackResource.LogicalResourceId → v = "" ∧ m1.entry k = m.entry k) := by
  induction rs with
  | nil =>
    intro m m1 h _
    simp only [seedLogicalIds] at h
    cases h
    exact ⟨"", rfl, by simp, by simp⟩
  | cons r rs ih =>
    intro m m1 h hnd
    simp only [seedLogicalIds, Except_bind_eq_ok, deref_eq_ok] at h
    obtain ⟨p, hp, l, hl, h⟩ := h
    rw [List.map_cons, List.nodup_cons] at hnd
    obtain ⟨hnotin, hnd⟩ := hnd
    by_cases hkl : l = k
    · subst hkl
      rw [if_pos hk] at h
      obtain ⟨v, _, _, h2⟩ := ih _ _ h hnd
      rw [hl] at hnotin
      refine ⟨p, ?_, ?_, ?_⟩
      · simp [getPhysicalResourceIdByLogicalResourceId, hp, hl, deref, bind, Except.bind, pure,
          Except.pure]
      · intro _
        rw [(h2 hnotin).2]
        simp
      · intro hn
        exact absurd (by simp [hl]) hn
    · have hstep : ∃ m0 : GoMap, seedLogicalIds rs m0 = .ok m1 ∧ m0.entry k = m.entry k := by
        by_cases ht : tfResourceIdOf l ≠ ""
        · rw [if_pos ht] at h
          exact ⟨_, h, by simp [Ne.symm hkl]⟩
        · rw [if_neg ht] at h
          exact ⟨_, h, rfl⟩
      obtain ⟨m0, h0, hm0⟩ := hstep
      obtain ⟨v, hv, h1, h2⟩ := ih _ _ h0 hnd
      have hmem : some k ∈ List.map StackResource.LogicalResourceId (r :: rs) ↔
          some k ∈ List.map StackResource.LogicalResourceId rs := by
        simp [hl, Ne.symm hkl]
      refine ⟨v, ?_, ?_, ?_⟩
      · simp [getPhysicalResourceIdByLogicalResourceId, hp, hl, deref, bind, Except.bind, hkl, hv]
      · intro hin
        exact h1 (hmem.mp hin)
      · intro hn
        obtain ⟨e1, e2⟩ := h2 (fun hin => hn (hmem.mpr hin))
        exact ⟨e1, e2.trans hm0⟩

/-- From the empty map and unique logical ids: the value read under a table key is
the physical id of that logical id. -/
theorem seedLogicalIds_get_empty (k : String) (hk : tfResourceIdOf k ≠ "")
    (rs : List StackResource) (m1 : GoMap) (h : seedLogicalIds rs GoMap.empty = .ok m1)
    (hnd : (rs.map StackResource.LogicalResourceId).Nodup) :
    getPhysicalResourceIdByLogicalResourceId rs k = .ok (m1.get k) := by
  obtain ⟨v, hv, h1, h2⟩ := seedLogicalIds_get k hk rs _ _ h hnd
  by_cases hin : some k ∈ rs.map StackResource.LogicalResourceId
  · rw [GoMap.get_of_entry (h1 hin)]; exact hv
  · obtain ⟨e1, e2⟩ := h2 hin
    have : m1.get k = "" := by simp [GoMap.get, e2]
    rw [this, ← e1]; exact hv

/-! ## The second loop -/

/-- An address that the iteration never reaches keeps its entry. -/
theorem projectToTfResourceIds_entry_of_not_mem (acc : GoMap) (a : String)
    (order : List (String × String)) :
    ∀ out : GoMap, a ∉ order.map Prod.snd →
      (projectToTfResourceIds acc order out).entry a = out.entry a := by
  induction order with
  | nil => intro out _; rfl
  | cons p order ih =>
    intro out hn
    obtain ⟨l, b⟩ := p
    simp only [List.map_cons, List.mem_cons, not_or] at hn
    simp only [projectToTfResourceIds]
    split
    · rw [ih _ hn.2]; simp [hn.1]
    · exact ih _ hn.2

/-- With pairwise distinct addresses, the entry at the address of a table pair is
the accumulator's value for its logical id when that value is non-empty, and is
left alone otherwise. -/
theorem projectToTfResourceIds_entry_of_mem (acc : GoMap) (l a : String)
    (order : List (String × String)) :
    ∀ out : GoMap, (order.map Prod.snd).Nodup → (l, a) ∈ order →
      (projectToTfResourceIds acc order out).entry a =
        if acc.get l ≠ "" then some (acc.get l) else out.entry a := by
  induction order with
  | nil => intro out _ h; simp at h
  | cons p order ih =>
    intro out hnd hmem
    obtain ⟨l1, a1⟩ := p
    rw [List.map_cons, List.nodup_cons] at hnd
    obtain ⟨hnotin, hnd⟩ := hnd
    rcases List.mem_cons.mp hmem with heq | hin
    · injection heq with e1 e2
      subst e1; subst e2
      simp only [projectToTfResourceIds]
      split
      · rw [projectToTfResourceIds_entry_of_not_mem _ _ _ _ hnotin]; simp
      · exact projectToTfResourceIds_entry_of_not_mem _ _ _ _ hnotin
    · have hne : a ≠ a1 := by
        rintro rfl
        exact hnotin (List.mem_map.mpr ⟨(l, a), hin, rfl⟩)
      simp only [projectToTfResourceIds]
      split
      · rw [ih _ hnd hin]; simp [hne]
      · exact ih _ hnd hin

/-- Every key of the map after the second loop was a key before it or is an
address of the iteration. -/
theorem projectToTfResourceIds_hasKey (acc : GoMap) (order : List (String × String)) :
    ∀ (out : GoMap) (a : String), (projectToTfResourceIds acc order out).hasKey a →
      out.hasKey a ∨ a ∈ order.map Prod.snd := by
  intro out a h
  by_cases hin : a ∈ order.map Prod.snd
  · exact Or.inr hin
  · left
    unfold GoMap.hasKey at *
    rwa [projectToTfResourceIds_entry_of_not_mem _ _ _ _ hin] at h

/-- The iteration order is a permutation of the table: its addresses are
pairwise distinct. -/
theorem order_addresses_nodup {order : List (String × String)}
    (h : order.Perm logicalIdToTfResourceId) : (order.map Prod.snd).Nodup :=
  ((h.map Prod.snd).nodup_iff).mpr table_addresses_nodup

/-! ## Entering an association id -/

theorem setAssociationId_eq_ok (m m1 : GoMap) (address : String)
    (assoc : Option ResolverRuleAssociation) :
    setAssociationId m address assoc = .ok m1 ↔
      (assoc = none ∧ m1 = m) ∨ ∃ a id, assoc = some a ∧ a.Id = some id ∧
        m1 = m.set address id := by
  cases assoc with
  | none =>
    rw [show setAssociationId m address none = .ok m from rfl]
    constructor
    · intro h; injection h with h; exact Or.inl ⟨rfl, h.symm⟩
    · rintro (⟨_, rfl⟩ | ⟨a, id, h, _⟩)
      · rfl
      · cases h
  | some a =>
    simp only [setAssociationId, Except_bind_eq_ok, deref_eq_ok, Except_pure_eq_ok]
    constructor
    · rintro ⟨id, hid, rfl⟩; exact Or.inr ⟨a, id, rfl, hid, rfl⟩
    · rintro (⟨h, _⟩ | ⟨a1, id, h, hid, rfl⟩)
      · cases h
      · cases h; exact ⟨id, hid, rfl⟩

/-- The entry at the address written: the id of the association, or the old entry. -/
theorem setAssociationId_entry_self (m m1 : GoMap) (address : String)
    (assoc : Option ResolverRuleAssociation) (h : setAssociationId m address assoc = .ok m1) :
    m1.entry address = match assoc with
      | some a => a.Id
      | none => m.entry address := by
  rcases (setAssociationId_eq_ok _ _ _ _).mp h with ⟨rfl, rfl⟩ | ⟨a, id, rfl, hid, rfl⟩
  · rfl
  · simp [hid]

/-- Any other entry is unchanged. -/
theorem setAssociationId_entry_other (m m1 : GoMap) (address x : String)
    (assoc : Option ResolverRuleAssociation) (h : setAssociationId m address assoc = .ok m1)
    (hx : x ≠ address) : m1.entry x = m.entry x := by
  rcases (setAssociationId_eq_ok _ _ _ _).mp h with ⟨rfl, rfl⟩ | ⟨a, id, rfl, hid, rfl⟩
  · rfl
  · simp [hx]

/-! ## The accumulator -/

/-- The steps behind a successful run of the accumulator part: the parameters
read, the map after the first loop, the four live lookups, and the final map as
the chain of assignments over the seeded map. -/
theorem logicalIdsToPhysicalIds_eq_ok (ec2 : Ec2Client) (so : DescribeStacksOutput)
    (sro : DescribeStackResourcesOutput) (acc : GoMap)
    (h : logicalIdsToPhysicalIds ec2 so sro = .ok acc) :
    ∃ ip tgw msk m ingressId egressId dhcp nacl,
      GetParameterValue so "IpRange" = .ok ip ∧
      GetParameterResolvedValue so "TgwRouteTableID" = .ok tgw ∧
      GetParameterResolvedValue so "TgwMSKRouteTableID" = .ok msk ∧
      seedLogicalIds sro.StackResources GoMap.empty = .ok m ∧
      getSecurityGroupRulePhysicalIds ec2 (m.get "SgBase") = .ok (ingressId, egressId) ∧
      GetDhcpOptionsIdFromVpc ec2 (m.get "VPC") = .ok dhcp ∧
      getDefaultNaclIdFromVpc ec2 (m.get "VPC") = .ok nacl ∧
      acc = ((((((((((((m.set "SubnetRouteAssociation1" (m.get "Subnet1" ++ "/" ++ m.get "RouteTable")).set
        "SubnetRouteAssociation2" (m.get "Subnet2" ++ "/" ++ m.get "RouteTable")).set
        "SubnetRouteAssociation3" (m.get "Subnet3" ++ "/" ++ m.get "RouteTable")).set
        "SgBaseIngressV4" ingressId).set
        "SgBaseEgress" egressId).set
        "DhcpOptions" dhcp).set
        "DefaultNacl" nacl).set
        "VpcDhcp" (m.get "VPC")).set
        "Route" (m.get "RouteTable" ++ "_0.0.0.0/0")).set
        "TgwRoute" (tgw ++ "_" ++ ip)).set
        "TgwRouteAssocation" (tgw ++ "_" ++ m.get "TgwAttach")).set
        "TgwRoutePropagation" (tgw ++ "_" ++ m.get "TgwAttach")).set
        "TgwMSKAttachmentPropagation" (msk ++ "_" ++ m.get "TgwAttach") := by
  simp [logicalIdsToPhysicalIds, Except_bind_eq_ok, Except_map_eq_ok] at h
  obtain ⟨ip, hip, tgw, htgw, msk, hmsk, m, hm, i, e, hsg, dhcp, hdhcp, nacl, hnacl, hacc⟩ := h
  exact ⟨ip, tgw, msk, m, i, e, dhcp, nacl, hip, htgw, hmsk, hm, hsg, hdhcp, hnacl, hacc.symm⟩

/-! ## The whole of `mapTfResourceIdsToPhysicalIds` -/

theorem lookupCurrentThenLegacy_eq_ok (client : Route53ResolverClient)
    (vpcId current legacy : String) (log log1 : List Request)
    (a : Option ResolverRuleAssociation) :
    lookupCurrentThenLegacy client vpcId current legacy log = .ok (a, log1) ↔
      (∃ x, GetResolverRuleAssociation client vpcId current log = .ok (some x, log1) ∧
        a = some x) ∨
      (∃ l, GetResolverRuleAssociation client vpcId current log = .ok (none, l) ∧
        GetResolverRuleAssociation client vpcId legacy l = .ok (a, log1)) := by
  simp only [lookupCurrentThenLegacy, Resolver.bind_eq_ok]
  constructor
  · rintro ⟨r, l, h1, h2⟩
    cases r with
    | none => exact Or.inr ⟨l, h1, h2⟩
    | some x =>
      rw [Resolver.pure_eq_ok] at h2
      cases h2
      exact Or.inl ⟨x, h1, rfl⟩
  · rintro (⟨x, h1, rfl⟩ | ⟨l, h1, h2⟩)
    · exact ⟨some x, log1, h1, by rw [Resolver.pure_eq_ok]⟩
    · exact ⟨none, l, h1, h2⟩

/-- The steps behind a successful run of `mapTfResourceIdsToPhysicalIds`. -/
theorem mapTfResourceIdsToPhysicalIds_eq_ok (ec2 : Ec2Client) (client : Route53ResolverClient)
    (order : List (String × String)) (so : DescribeStacksOutput)
    (sro : DescribeStackResourcesOutput) (log log1 : List Request) (out : GoMap) :
    mapTfResourceIdsToPhysicalIds ec2 client order so sro log = .ok (out, log1) ↔
      ∃ acc ia l1 ta l2 ca o1 o2,
        logicalIdsToPhysicalIds ec2 so sro = .ok acc ∧
        GetResolverRuleAssociation client (acc.get "VPC") ResolverRuleInternet log
          = .ok (ia, l1) ∧
        lookupCurrentThenLegacy client (acc.get "VPC") ResolverRuleTldIac ResolverRuleTldLegacy l1
          = .ok (ta, l2) ∧
        lookupCurrentThenLegacy client (acc.get "VPC") ResolverRuleCrossVpcIac
          ResolverRuleCrossVpcLegacy l2 = .ok (ca, log1) ∧
        setAssociationId (projectToTfResourceIds acc order GoMap.empty)
          "module.vpc.aws_route53_resolver_rule_association.internet" ia = .ok o1 ∧
        setAssociationId o1 "module.vpc.aws_route53_resolver_rule_association.mskcc_tld" ta
          = .ok o2 ∧
        setAssociationId o2 "module.vpc.aws_route53_resolver_rule_association.cross_vpc" ca
          = .ok out := by
  simp only [mapTfResourceIdsToPhysicalIds, Resolver.bind_eq_ok, Resolver.lift_eq_ok,
    Resolver.pure_eq_ok]
  constructor
  · rintro ⟨acc, l0, ⟨acc1, hacc, e0⟩, ia, l1, hi, ta, l2, ht, ca, l3, hc, o1, l4, ⟨o1a, h1, e1⟩,
      o2, l5, ⟨o2a, h2, e2⟩, o3, l6, ⟨o3a, h3, e3⟩, e4⟩
    cases e0; cases e1; cases e2; cases e3; cases e4
    exact ⟨acc, ia, l1, ta, l2, ca, o1, o2, hacc, hi, ht, hc, h1, h2, h3⟩
  · rintro ⟨acc, ia, l1, ta, l2, ca, o1, o2, hacc, hi, ht, hc, h1, h2, h3⟩
    exact ⟨acc, log, ⟨acc, hacc, rfl⟩, ia, l1, hi, ta, l2, ht, ca, log1, hc, o1, log1,
      ⟨o1, h1, rfl⟩, o2, log1, ⟨o2, h2, rfl⟩, out, log1, ⟨out, h3, rfl⟩, rfl⟩

/-- No address of the table is one of the three addresses reserved for the
resolver-rule associations. -/
theorem table_address_not_reserved : ∀ p ∈ logicalIdToTfResourceId,
    p.2 ≠ "module.vpc.aws_route53_resolver_rule_association.internet" ∧
    p.2 ≠ "module.vpc.aws_route53_resolver_rule_association.mskcc_tld" ∧
    p.2 ≠ "module.vpc.aws_route53_resolver_rule_association.cross_vpc" := by decide

/-- The returned map at the address of a table pair: the accumulator's value for
the logical id when it is non-empty, and no entry otherwise. -/
theorem mapTfResourceIdsToPhysicalIds_entry_of_table (ec2 : Ec2Client)
    (client : Route53ResolverClient) (order : List (String × String))
    (so : DescribeStacksOutput) (sro : DescribeStackResourcesOutput)
    (log log1 : List Request) (out acc : GoMap)
    (hperm : order.Perm logicalIdToTfResourceId)
    (h : mapTfResourceIdsToPhysicalIds ec2 client order so sro log = .ok (out, log1))
    (hacc : logicalIdsToPhysicalIds ec2 so sro = .ok acc)
    (l a : String) (hla : (l, a) ∈ logicalIdToTfResourceId) :
    out.entry a = if acc.get l ≠ "" then some (acc.get l) else none := by
  obtain ⟨acc1, ia, l1, ta, l2, ca, o1, o2, hacc1, _, _, _, h1, h2, h3⟩ :=
    (mapTfResourceIdsToPhysicalIds_eq_ok _ _ _ _ _ _ _ _).mp h
  rw [hacc] at hacc1
  cases hacc1
  obtain ⟨n1, n2, n3⟩ := table_address_not_reserved _ hla
  rw [setAssociationId_entry_other _ _ _ _ _ h3 n3, setAssociationId_entry_other _ _ _ _ _ h2 n2,
    setAssociationId_entry_other _ _ _ _ _ h1 n1,
    projectToTfResourceIds_entry_of_mem acc l a order _ (order_addresses_nodup hperm)
      (hperm.mem_iff.mpr hla)]
  rfl

theorem append_sep_ne_empty (s sep t : String) (h : sep ≠ "") : s ++ sep ++ t ≠ "" := by
  intro e
  have hl := congrArg String.length e
  simp only [String.length_append] at hl
  have hs : sep.length ≠ 0 := by
    intro h0
    apply h
    apply String.ext
    have : sep.data.length = 0 := h0
    simpa using List.length_eq_zero.mp this
  have : ("" : String).length = 0 := rfl
  omega

/-! ## The sample account runs -/

theorem exists_of_isOk {ε α : Type} {x : Except ε α} (h : isOk x = true) : ∃ a, x = .ok a := by
  cases x with
  | ok a => exact ⟨a, rfl⟩
  | error e => cases h

theorem sample_run_isOk :
    isOk (mapTfResourceIdsToPhysicalIds sampleEc2 sampleResolver logicalIdToTfResourceId
      sampleStacks sampleResources []) = true := by decide

/-! ## Claims on the import identifiers -/

/-- C1: for a rule whose protocol is the sentinel `-1` and whose two ports are `-1`, and any
direction `d`, `formatSecurityGroupRuleId` gives `<GroupId>_<d>_all_0_0_<CidrIpv4>`. -/
theorem formatSecurityGroupRuleId_all (groupId cidrIpv4 d : String) (isEgress : Option Bool) :
    formatSecurityGroupRuleId
      { GroupId := some groupId, IsEgress := isEgress, IpProtocol := some "-1",
        FromPort := some (-1), ToPort := some (-1), CidrIpv4 := some cidrIpv4 } d
      = .ok (groupId ++ "_" ++ d ++ "_all_0_0_" ++ cidrIpv4) := by
  simp [formatSecurityGroupRuleId, deref, bind, Except.bind, pure, Except.pure, Itoa_eq_neg_one,
    String.append_assoc]

/-- C2, amended: for a rule whose protocol is not the sentinel `-1`, and which is not the
literal `all` with a port `-1`, `formatSecurityGroupRuleId` passes the protocol and the
decimal ports through unchanged. -/
theorem formatSecurityGroupRuleId_explicit (groupId cidrIpv4 d p : String) (isEgress : Option Bool)
    (f t : Int) (hp : p ≠ "-1") (h : p ≠ "all" ∨ (f ≠ -1 ∧ t ≠ -1)) :
    formatSecurityGroupRuleId
      { GroupId := some groupId, IsEgress := isEgress, IpProtocol := some p,
        FromPort := some f, ToPort := some t, CidrIpv4 := some cidrIpv4 } d
      = .ok (groupId ++ "_" ++ d ++ "_" ++ p ++ "_" ++ Itoa f ++ "_" ++ Itoa t ++ "_"
          ++ cidrIpv4) := by
  have hf : ¬ (p = "all" ∧ f = -1) := by rintro ⟨h1, h2⟩; rcases h with h | h; exact h h1; exact h.1 h2
  have ht : ¬ (p = "all" ∧ t = -1) := by rintro ⟨h1, h2⟩; rcases h with h | h; exact h h1; exact h.2 h2
  simp [formatSecurityGroupRuleId, deref, bind, Except.bind, pure, Except.pure, Itoa_eq_neg_one,
    hp, hf, ht]

/-- C2, amended, at protocol `icmp` with ports `-1`/`-1`, which stay `-1`. -/
theorem formatSecurityGroupRuleId_explicit_witness :
    formatSecurityGroupRuleId
      { GroupId := some "sg-1", IsEgress := some false, IpProtocol := some "icmp",
        FromPort := some (-1), ToPort := some (-1), CidrIpv4 := some "10.0.0.0/8" } "ingress"
      = .ok ("sg-1" ++ "_" ++ "ingress" ++ "_" ++ "icmp" ++ "_" ++ Itoa (-1) ++ "_" ++ Itoa (-1) ++ "_"
          ++ "10.0.0.0/8") :=
  formatSecurityGroupRuleId_explicit "sg-1" "10.0.0.0/8" "ingress" "icmp" (some false) (-1) (-1)
    (by decide) (Or.inl (by decide))

/-- C2 as stated fails: the protocol string `all` is not the sentinel `-1`, yet with
ports `-1`/`-1` the result is not the pass-through `sg-1_ingress_all_-1_-1_10.0.0.0/8`
(the ports become `0`). -/
theorem formatSecurityGroupRuleId_literal_all :
    ("all" : String) ≠ "-1" ∧
    formatSecurityGroupRuleId
      { GroupId := some "sg-1", IsEgress := some false, IpProtocol := some "all",
        FromPort := some (-1), ToPort := some (-1), CidrIpv4 := some "10.0.0.0/8" } "ingress"
      ≠ .ok ("sg-1" ++ "_" ++ "ingress" ++ "_" ++ "all" ++ "_" ++ Itoa (-1) ++ "_" ++ Itoa (-1)
          ++ "_" ++ "10.0.0.0/8") := by
  decide

/-- C3: on a stack with unique logical ids on which `mapTfResourceIdsToPhysicalIds`
returns, the entry of the returned map at the address of `SubnetRouteAssociation_i`
is `<physical id of Subnet_i>/<physical id of RouteTable>` for `i = 1, 2, 3`,
whatever physical id the stack records for the association itself. -/
theorem subnet_route_association_ids (ec2 : Ec2Client) (client : Route53ResolverClient)
    (order : List (String × String)) (so : DescribeStacksOutput)
    (sro : DescribeStackResourcesOutput) (log log1 : List Request) (out : GoMap)
    (hperm : order.Perm logicalIdToTfResourceId)
    (hunique : (sro.StackResources.map StackResource.LogicalResourceId).Nodup)
    (h : mapTfResourceIdsToPhysicalIds ec2 client order so sro log = .ok (out, log1)) :
    ∃ s1 s2 s3 rt,
      getPhysicalResourceIdByLogicalResourceId sro.StackResources "Subnet1" = .ok s1 ∧
      getPhysicalResourceIdByLogicalResourceId sro.StackResources "Subnet2" = .ok s2 ∧
      getPhysicalResourceIdByLogicalResourceId sro.StackResources "Subnet3" = .ok s3 ∧
      getPhysicalResourceIdByLogicalResourceId sro.StackResources "RouteTable" = .ok rt ∧
      out.entry "module.vpc.aws_route_table_association.rt_association_1"
        = some (s1 ++ "/" ++ rt) ∧
      out.entry "module.vpc.aws_route_table_association.rt_association_2"
        = some (s2 ++ "/" ++ rt) ∧
      out.entry "module.vpc.aws_route_table_association.rt_association_3"
        = some (s3 ++ "/" ++ rt) := by
  obtain ⟨acc, _, _, _, _, _, _, _, hacc, _⟩ :=
    (mapTfResourceIdsToPhysicalIds_eq_ok _ _ _ _ _ _ _ _).mp h
  obtain ⟨ip, tgw, msk, m, ing, eg, dhcp, nacl, _, _, _, hm, _, _, _, hdef⟩ :=
    logicalIdsToPhysicalIds_eq_ok _ _ _ _ hacc
  have e1 := mapTfResourceIdsToPhysicalIds_entry_of_table _ _ _ _ _ _ _ _ _ hperm h hacc
    "SubnetRouteAssociation1" "module.vpc.aws_route_table_association.rt_association_1"
    (by decide)
  have e2 := mapTfResourceIdsToPhysicalIds_entry_of_table _ _ _ _ _ _ _ _ _ hperm h hacc
    "SubnetRouteAssociation2" "module.vpc.aws_route_table_association.rt_association_2"
    (by decide)
  have e3 := mapTfResourceIdsToPhysicalIds_entry_of_table _ _ _ _ _ _ _ _ _ hperm h hacc
    "SubnetRouteAssociation3" "module.vpc.aws_route_table_association.rt_association_3"
    (by decide)
  have g1 : acc.get "SubnetRouteAssociation1" = m.get "Subnet1" ++ "/" ++ m.get "RouteTable" := by
    rw [hdef]; simp
  have g2 : acc.get "SubnetRouteAssociation2" = m.get "Subnet2" ++ "/" ++ m.get "RouteTable" := by
    rw [hdef]; simp
  have g3 : acc.get "SubnetRouteAssociation3" = m.get "Subnet3" ++ "/" ++ m.get "RouteTable" := by
    rw [hdef]; simp
  rw [g1, if_pos (append_sep_ne_empty _ _ _ (by decide))] at e1
  rw [g2, if_pos (append_sep_ne_empty _ _ _ (by decide))] at e2
  rw [g3, if_pos (append_sep_ne_empty _ _ _ (by decide))] at e3
  exact ⟨m.get "Subnet1", m.get "Subnet2", m.get "Subnet3", m.get "RouteTable",
    seedLogicalIds_get_empty _ (by decide) _ _ hm hunique,
    seedLogicalIds_get_empty _ (by decide) _ _ hm hunique,
    seedLogicalIds_get_empty _ (by decide) _ _ hm hunique,
    seedLogicalIds_get_empty _ (by decide) _ _ hm hunique, e1, e2, e3⟩

/-- C3 at the sample account, where the stack records `rtbassoc-1` for the first
association. -/
theorem subnet_route_association_ids_witness :
    logicalIdToTfResourceId.Perm logicalIdToTfResourceId ∧
    (sampleResources.StackResources.map StackResource.LogicalResourceId).Nodup ∧
    ∃ out log1,
      mapTfResourceIdsToPhysicalIds sampleEc2 sampleResolver logicalIdToTfResourceId
        sampleStacks sampleResources [] = .ok (out, log1) ∧
      out.entry "module.vpc.aws_route_table_association.rt_association_1"
        = some "subnet-1/rtb-1" ∧
      out.entry "module.vpc.aws_route_table_association.rt_association_2"
        = some "subnet-2/rtb-1" ∧
      out.entry "module.vpc.aws_route_table_association.rt_association_3"
        = some "subnet-3/rtb-1" := by
  obtain ⟨⟨out, log1⟩, h⟩ := exists_of_isOk sample_run_isOk
  obtain ⟨s1, s2, s3, rt, h1, h2, h3, hrt, e1, e2, e3⟩ :=
    subnet_route_association_ids _ _ _ _ _ _ _ _ (List.Perm.refl _) (by decide) h
  have c1 : s1 = "subnet-1" := by
    have : getPhysicalResourceIdByLogicalResourceId sampleResources.StackResources "Subnet1"
      = .ok "subnet-1" := by decide
    rw [this] at h1; injection h1 with h1; exact h1.symm
  have c2 : s2 = "subnet-2" := by
    have : getPhysicalResourceIdByLogicalResourceId sampleResources.StackResources "Subnet2"
      = .ok "subnet-2" := by decide
    rw [this] at h2; injection h2 with h2; exact h2.symm
  have c3 : s3 = "subnet-3" := by
    have : getPhysicalResourceIdByLogicalResourceId sampleResources.StackResources "Subnet3"
      = .ok "subnet-3" := by decide
    rw [this] at h3; injection h3 with h3; exact h3.symm
  have c4 : rt = "rtb-1" := by
    have : getPhysicalResourceIdByLogicalResourceId sampleResources.StackResources "RouteTable"
      = .ok "rtb-1" := by decide
    rw [this] at hrt; injection hrt with hrt; exact hrt.symm
  subst c1 c2 c3 c4
  exact ⟨List.Perm.refl _, by decide, out, log1, h, e1, e2, e3⟩

/-- C4: on a stack (with unique logical ids) on which `mapTfResourceIdsToPhysicalIds`
returns, the entries at the addresses of the transit-gateway route-table association
and of the route-table propagation are both
`<resolved value of TgwRouteTableID>_<physical id of TgwAttach>`. -/
theorem tgw_association_and_propagation_ids (ec2 : Ec2Client) (client : Route53ResolverClient)
    (order : List (String × String)) (so : DescribeStacksOutput)
    (sro : DescribeStackResourcesOutput) (log log1 : List Request) (out : GoMap)
    (hperm : order.Perm logicalIdToTfResourceId)
    (hunique : (sro.StackResources.map StackResource.LogicalResourceId).Nodup)
    (h : mapTfResourceIdsToPhysicalIds ec2 client order so sro log = .ok (out, log1)) :
    ∃ tgw attach,
      GetParameterResolvedValue so "TgwRouteTableID" = .ok tgw ∧
      getPhysicalResourceIdByLogicalResourceId sro.StackResources "TgwAttach" = .ok attach ∧
      out.entry "module.vpc.aws_ec2_transit_gateway_route_table_association.main"
        = some (tgw ++ "_" ++ attach) ∧
      out.entry "module.vpc.aws_ec2_transit_gateway_route_table_propagation.main"
        = some (tgw ++ "_" ++ attach) := by
  obtain ⟨acc, _, _, _, _, _, _, _, hacc, _⟩ :=
    (mapTfResourceIdsToPhysicalIds_eq_ok _ _ _ _ _ _ _ _).mp h
  obtain ⟨ip, tgw, msk, m, ing, eg, dhcp, nacl, _, htgw, _, hm, _, _, _, hdef⟩ :=
    logicalIdsToPhysicalIds_eq_ok _ _ _ _ hacc
  have e1 := mapTfResourceIdsToPhysicalIds_entry_of_table _ _ _ _ _ _ _ _ _ hperm h hacc
    "TgwRouteAssocation" "module.vpc.aws_ec2_transit_gateway_route_table_association.main"
    (by decide)
  have e2 := mapTfResourceIdsToPhysicalIds_entry_of_table _ _ _ _ _ _ _ _ _ hperm h hacc
    "TgwRoutePropagation" "module.vpc.aws_ec2_transit_gateway_route_table_propagation.main"
    (by decide)
  have g1 : acc.get "TgwRouteAssocation" = tgw ++ "_" ++ m.get "TgwAttach" := by
    rw [hdef]; simp
  have g2 : acc.get "TgwRoutePropagation" = tgw ++ "_" ++ m.get "TgwAttach" := by
    rw [hdef]; simp
  rw [g1, if_pos (append_sep_ne_empty _ _ _ (by decide))] at e1
  rw [g2, if_pos (append_sep_ne_empty _ _ _ (by decide))] at e2
  exact ⟨tgw, m.get "TgwAttach", htgw, seedLogicalIds_get_empty _ (by decide) _ _ hm hunique,
    e1, e2⟩

/-- C4 at the sample account: `TgwAttach` is `tgw-attach-1`, `TgwRouteTableID`
resolves to `tgw-rtb-1`, and both entries are `tgw-rtb-1_tgw-attach-1`. -/
theorem tgw_association_and_propagation_ids_witness :
    logicalIdToTfResourceId.Perm logicalIdToTfResourceId ∧
    (sampleResources.StackResources.map StackResource.LogicalResourceId).Nodup ∧
    GetParameterResolvedValue sampleStacks "TgwRouteTableID" = .ok "tgw-rtb-1" ∧
    getPhysicalResourceIdByLogicalResourceId sampleResources.StackResources "TgwAttach"
      = .ok "tgw-attach-1" ∧
    ∃ out log1,
      mapTfResourceIdsToPhysicalIds sampleEc2 sampleResolver logicalIdToTfResourceId
        sampleStacks sampleResources [] = .ok (out, log1) ∧
      out.entry "module.vpc.aws_ec2_transit_gateway_route_table_association.main"
        = some "tgw-rtb-1_tgw-attach-1" ∧
      out.entry "module.vpc.aws_ec2_transit_gateway_route_table_propagation.main"
        = some "tgw-rtb-1_tgw-attach-1" := by
  obtain ⟨⟨out, log1⟩, h⟩ := exists_of_isOk sample_run_isOk
  obtain ⟨tgw, attach, h1, h2, e1, e2⟩ :=
    tgw_association_and_propagation_ids _ _ _ _ _ _ _ _ (List.Perm.refl _) (by decide) h
  have p1 : GetParameterResolvedValue sampleStacks "TgwRouteTableID" = .ok "tgw-rtb-1" := by
    decide
  have p2 : getPhysicalResourceIdByLogicalResourceId sampleResources.StackResources "TgwAttach"
      = .ok "tgw-attach-1" := by decide
  have c1 : tgw = "tgw-rtb-1" := by
    rw [p1] at h1; injection h1 with h1; exact h1.symm
  have c2 : attach = "tgw-attach-1" := by
    rw [p2] at h2; injection h2 with h2; exact h2.symm
  subst c1 c2
  exact ⟨List.Perm.refl _, by decide, p1, p2, out, log1, h, e1, e2⟩

/-- Every key of the accumulator is a key of the table. -/
theorem logicalIdsToPhysicalIds_hasKey (ec2 : Ec2Client) (so : DescribeStacksOutput)
    (sro : DescribeStackResourcesOutput) (acc : GoMap)
    (h : logicalIdsToPhysicalIds ec2 so sro = .ok acc) (k : String) (hk : acc.hasKey k) :
    k ∈ logicalIdToTfResourceId.map Prod.fst := by
  obtain ⟨ip, tgw, msk, m, ing, eg, dhcp, nacl, _, _, _, hm, _, _, _, hdef⟩ :=
    logicalIdsToPhysicalIds_eq_ok _ _ _ _ h
  by_cases hmk : m.hasKey k
  · rcases seedLogicalIds_hasKey _ _ _ hm k hmk with h0 | ⟨h1, _⟩
    · exact absurd rfl h0
    · exact (tfResourceIdOf_ne_empty_iff k).mp h1
  · have hnone : m.entry k = none := by
      unfold GoMap.hasKey at hmk
      exact not_not.mp hmk
    unfold GoMap.hasKey at hk
    rw [hdef] at hk
    simp only [GoMap.entry_set, hnone] at hk
    by_contra hnot
    apply hk
    have hne : ∀ l a, (l, a) ∈ logicalIdToTfResourceId → k ≠ l := by
      rintro l a hla rfl
      exact hnot (List.mem_map.mpr ⟨(k, a), hla, rfl⟩)
    rw [if_neg (hne _ "module.vpc.aws_ec2_transit_gateway_route_table_propagation.msk"
        (by decide)),
      if_neg (hne _ "module.vpc.aws_ec2_transit_gateway_route_table_propagation.main"
        (by decide)),
      if_neg (hne _ "module.vpc.aws_ec2_transit_gateway_route_table_association.main"
        (by decide)),
      if_neg (hne _ "module.vpc.aws_ec2_transit_gateway_route.main" (by decide)),
      if_neg (hne _ "module.vpc.aws_route.main" (by decide)),
      if_neg (hne _ "module.vpc.aws_vpc_dhcp_options_association.main" (by decide)),
      if_neg (hne _ "module.vpc.aws_default_network_acl.main" (by decide)),
      if_neg (hne _ "module.vpc.aws_vpc_dhcp_options.main" (by decide)),
      if_neg (hne _ "module.vpc.aws_security_group_rule.base_egress" (by decide)),
      if_neg (hne _ "module.vpc.aws_security_group_rule.base_ingress_v4" (by decide)),
      if_neg (hne _ "module.vpc.aws_route_table_association.rt_association_3" (by decide)),
      if_neg (hne _ "module.vpc.aws_route_table_association.rt_association_2" (by decide)),
      if_neg (hne _ "module.vpc.aws_route_table_association.rt_association_1" (by decide))]

/-- C5: a stack resource whose logical id is not a key of the table is not a key
of the accumulator once it is recorded and rewritten (keys are only ever added, so
it is a key at no earlier point either), and every key of the returned map is an
address of the table or one of the three addresses reserved for the resolver-rule
associations. -/
theorem unmapped_records_stay_out (ec2 : Ec2Client) (client : Route53ResolverClient)
    (order : List (String × String)) (so : DescribeStacksOutput)
    (sro : DescribeStackResourcesOutput)
    (hperm : order.Perm logicalIdToTfResourceId) :
    (∀ acc, logicalIdsToPhysicalIds ec2 so sro = .ok acc →
      ∀ r ∈ sro.StackResources, ∀ l, r.LogicalResourceId = some l →
        l ∉ logicalIdToTfResourceId.map Prod.fst → ¬ acc.hasKey l) ∧
    (∀ log out log1,
      mapTfResourceIdsToPhysicalIds ec2 client order so sro log = .ok (out, log1) →
      ∀ a, out.hasKey a →
        a ∈ logicalIdToTfResourceId.map Prod.snd ∨
        a = "module.vpc.aws_route53_resolver_rule_association.internet" ∨
        a = "module.vpc.aws_route53_resolver_rule_association.mskcc_tld" ∨
        a = "module.vpc.aws_route53_resolver_rule_association.cross_vpc") := by
  constructor
  · intro acc hacc r _ l _ hl hk
    exact hl (logicalIdsToPhysicalIds_hasKey _ _ _ _ hacc l hk)
  · intro log out log1 h a ha
    obtain ⟨acc, ia, l1, ta, l2, ca, o1, o2, _, _, _, _, h1, h2, h3⟩ :=
      (mapTfResourceIdsToPhysicalIds_eq_ok _ _ _ _ _ _ _ _).mp h
    by_cases c3 : a = "module.vpc.aws_route53_resolver_rule_association.cross_vpc"
    · exact Or.inr (Or.inr (Or.inr c3))
    by_cases c2 : a = "module.vpc.aws_route53_resolver_rule_association.mskcc_tld"
    · exact Or.inr (Or.inr (Or.inl c2))
    by_cases c1 : a = "module.vpc.aws_route53_resolver_rule_association.internet"
    · exact Or.inr (Or.inl c1)
    left
    unfold GoMap.hasKey at ha
    rw [setAssociationId_entry_other _ _ _ _ _ h3 c3, setAssociationId_entry_other _ _ _ _ _ h2 c2,
      setAssociationId_entry_other _ _ _ _ _ h1 c1] at ha
    rcases projectToTfResourceIds_hasKey acc order GoMap.empty a ha with h0 | hin
    · exact absurd rfl h0
    · exact ((hperm.map Prod.snd).mem_iff).mp hin

/-- C5 at the sample account: the record `LambdaHelper` is no key of the
accumulator, and its physical id is under no unexpected address. -/
theorem unmapped_records_stay_out_witness :
    logicalIdToTfResourceId.Perm logicalIdToTfResourceId ∧
    (∃ acc, logicalIdsToPhysicalIds sampleEc2 sampleStacks sampleResources = .ok acc ∧
      ¬ acc.hasKey "LambdaHelper") ∧
    (∃ out log1, mapTfResourceIdsToPhysicalIds sampleEc2 sampleResolver
        logicalIdToTfResourceId sampleStacks sampleResources [] = .ok (out, log1) ∧
      ¬ out.hasKey "LambdaHelper") := by
  have hc := unmapped_records_stay_out sampleEc2 sampleResolver logicalIdToTfResourceId
    sampleStacks sampleResources (List.Perm.refl _)
  obtain ⟨⟨out, log1⟩, h⟩ := exists_of_isOk sample_run_isOk
  obtain ⟨acc, _, _, _, _, _, _, _, hacc, _⟩ :=
    (mapTfResourceIdsToPhysicalIds_eq_ok _ _ _ _ _ _ _ _).mp h
  refine ⟨List.Perm.refl _, ⟨acc, hacc, ?_⟩, ⟨out, log1, h, ?_⟩⟩
  · exact hc.1 acc hacc ⟨some "LambdaHelper", some "helper-fn"⟩ (by decide) "LambdaHelper" rfl
      (by decide)
  · intro hk
    have := hc.2 [] out log1 h "LambdaHelper" hk
    revert this
    decide

/-! ## What a lookup sends -/

/-- The outcome of a lookup does not depend on the requests already logged. -/
theorem GetResolverRuleAssociation_log (client : Route53ResolverClient) (vpcId name : String)
    (log log1 : List Request) (a : Option ResolverRuleAssociation) :
    GetResolverRuleAssociation client vpcId name log = .ok (a, log1) ↔
      ∃ reqs, GetResolverRuleAssociation client vpcId name [] = .ok (a, reqs) ∧
        log1 = log ++ reqs := by
  simp only [GetResolverRuleAssociation_eq_ok]
  constructor
  · rintro ⟨rules, rule, id, assocs, hr, hh, hid, ha, e1, e2⟩
    exact ⟨_, ⟨rules, rule, id, assocs, hr, hh, hid, ha, e1, rfl⟩, by simpa using e2⟩
  · rintro ⟨reqs, ⟨rules, rule, id, assocs, hr, hh, hid, ha, e1, e2⟩, e3⟩
    refine ⟨rules, rule, id, assocs, hr, hh, hid, ha, e1, ?_⟩
    rw [e3, e2]; simp

/-- The rule names a lookup asks for: the one it is given. -/
theorem GetResolverRuleAssociation_names (client : Route53ResolverClient) (vpcId name : String)
    (log log1 : List Request) (a : Option ResolverRuleAssociation)
    (h : GetResolverRuleAssociation client vpcId name log = .ok (a, log1)) (n : String) :
    Request.listResolverRules n ∈ log1 ↔ (Request.listResolverRules n ∈ log ∨ n = name) := by
  obtain ⟨rules, rule, id, assocs, _, _, _, _, _, e2⟩ :=
    (GetResolverRuleAssociation_eq_ok _ _ _ _ _ _).mp h
  rw [e2]
  simp

/-- A lookup is determined by the client: two runs agree on the association. -/
theorem GetResolverRuleAssociation_det (client : Route53ResolverClient) (vpcId name : String)
    (log log1 logx logy : List Request) (a b : Option ResolverRuleAssociation)
    (h1 : GetResolverRuleAssociation client vpcId name log = .ok (a, log1))
    (h2 : GetResolverRuleAssociation client vpcId name logx = .ok (b, logy)) : a = b := by
  obtain ⟨r1, h1, _⟩ := (GetResolverRuleAssociation_log _ _ _ _ _ _).mp h1
  obtain ⟨r2, h2, _⟩ := (GetResolverRuleAssociation_log _ _ _ _ _ _).mp h2
  rw [h1] at h2
  injection h2 with h2
  injection h2

/-- When the current name has an association, the category's lookup returns it and
asks for no other name. -/
theorem lookupCurrentThenLegacy_found (client : Route53ResolverClient)
    (vpcId current legacy : String) (reqs log log1 : List Request)
    (a : ResolverRuleAssociation) (r : Option ResolverRuleAssociation)
    (hcur : GetResolverRuleAssociation client vpcId current [] = .ok (some a, reqs))
    (h : lookupCurrentThenLegacy client vpcId current legacy log = .ok (r, log1)) :
    r = some a ∧ ∀ n, Request.listResolverRules n ∈ log1 ↔
      (Request.listResolverRules n ∈ log ∨ n = current) := by
  rcases (lookupCurrentThenLegacy_eq_ok _ _ _ _ _ _ _).mp h with ⟨x, h1, rfl⟩ | ⟨l, h1, _⟩
  · have := GetResolverRuleAssociation_det _ _ _ _ _ _ _ _ _ hcur h1
    exact ⟨this.symm, GetResolverRuleAssociation_names _ _ _ _ _ _ h1⟩
  · have := GetResolverRuleAssociation_det _ _ _ _ _ _ _ _ _ hcur h1
    cases this

/-- When neither name has an association, the category's lookup returns none. -/
theorem lookupCurrentThenLegacy_none (client : Route53ResolverClient)
    (vpcId current legacy : String) (r1 r2 : List Request)
    (hcur : GetResolverRuleAssociation client vpcId current [] = .ok (none, r1))
    (hleg : GetResolverRuleAssociation client vpcId legacy [] = .ok (none, r2))
    (log : List Request) :
    lookupCurrentThenLegacy client vpcId current legacy log = .ok (none, log ++ r1 ++ r2) := by
  rw [lookupCurrentThenLegacy_eq_ok]
  right
  exact ⟨log ++ r1, (GetResolverRuleAssociation_log _ _ _ _ _ _).mpr ⟨r1, hcur, rfl⟩,
    (GetResolverRuleAssociation_log _ _ _ _ _ _).mpr ⟨r2, hleg, rfl⟩⟩

/-- The outcome of a category's lookup does not depend on the requests already
logged. -/
theorem lookupCurrentThenLegacy_log (client : Route53ResolverClient)
    (vpcId current legacy : String) (log log1 : List Request)
    (a : Option ResolverRuleAssociation) :
    lookupCurrentThenLegacy client vpcId current legacy log = .ok (a, log1) ↔
      ∃ reqs, lookupCurrentThenLegacy client vpcId current legacy [] = .ok (a, reqs) ∧
        log1 = log ++ reqs := by
  simp only [lookupCurrentThenLegacy_eq_ok]
  constructor
  · rintro (⟨x, h1, rfl⟩ | ⟨l, h1, h2⟩)
    · obtain ⟨r, hr, e⟩ := (GetResolverRuleAssociation_log _ _ _ _ _ _).mp h1
      exact ⟨r, Or.inl ⟨x, hr, rfl⟩, e⟩
    · obtain ⟨r, hr, e⟩ := (GetResolverRuleAssociation_log _ _ _ _ _ _).mp h1
      obtain ⟨s, hs, e2⟩ := (GetResolverRuleAssociation_log _ _ _ _ _ _).mp h2
      refine ⟨r ++ s, Or.inr ⟨r, hr, ?_⟩, ?_⟩
      · exact (GetResolverRuleAssociation_log _ _ _ _ _ _).mpr ⟨s, hs, rfl⟩
      · rw [e2, e]; simp
  · rintro ⟨reqs, (⟨x, h1, rfl⟩ | ⟨l, h1, h2⟩), e⟩
    · exact Or.inl ⟨x, (GetResolverRuleAssociation_log _ _ _ _ _ _).mpr ⟨reqs, h1, e⟩, rfl⟩
    · obtain ⟨s, hs, e2⟩ := (GetResolverRuleAssociation_log _ _ _ _ _ _).mp h2
      refine Or.inr ⟨log ++ l, (GetResolverRuleAssociation_log _ _ _ _ _ _).mpr ⟨l, h1, rfl⟩, ?_⟩
      exact (GetResolverRuleAssociation_log _ _ _ _ _ _).mpr ⟨s, hs, by rw [e, e2]; simp⟩

/-- The rule names a category's lookup asks for are among its two names. -/
theorem lookupCurrentThenLegacy_names (client : Route53ResolverClient)
    (vpcId current legacy : String) (log log1 : List Request)
    (a : Option ResolverRuleAssociation)
    (h : lookupCurrentThenLegacy client vpcId current legacy log = .ok (a, log1)) (n : String)
    (hn : Request.listResolverRules n ∈ log1) :
    Request.listResolverRules n ∈ log ∨ n = current ∨ n = legacy := by
  rcases (lookupCurrentThenLegacy_eq_ok _ _ _ _ _ _ _).mp h with ⟨x, h1, rfl⟩ | ⟨l, h1, h2⟩
  · rcases (GetResolverRuleAssociation_names _ _ _ _ _ _ h1 n).mp hn with h0 | h0
    · exact Or.inl h0
    · exact Or.inr (Or.inl h0)
  · rcases (GetResolverRuleAssociation_names _ _ _ _ _ _ h2 n).mp hn with h0 | h0
    · rcases (GetResolverRuleAssociation_names _ _ _ _ _ _ h1 n).mp h0 with h3 | h3
      · exact Or.inl h3
      · exact Or.inr (Or.inl h3)
    · exact Or.inr (Or.inr h0)

/-- An association with an id can always be entered. -/
theorem setAssociationId_total (m : GoMap) (address : String)
    (assoc : Option ResolverRuleAssociation) (hid : ∀ x, assoc = some x → x.Id ≠ none) :
    ∃ m1, setAssociationId m address assoc = .ok m1 := by
  cases assoc with
  | none => exact ⟨m, rfl⟩
  | some a =>
    cases hi : a.Id with
    | none => exact absurd hi (hid a rfl)
    | some id =>
      exact ⟨m.set address id, (setAssociationId_eq_ok _ _ _ _).mpr
        (Or.inr ⟨a, id, rfl, hi, rfl⟩)⟩

/-! ## Claims on the resolver-rule lookups -/

/-- Whatever the VPC and the name: when the rule listing is empty the lookup stops
with an index fault, before any association is listed. -/
theorem GetResolverRuleAssociation_of_no_rule (client : Route53ResolverClient)
    (vpcId name : String) (log : List Request) (h : client.ListResolverRules name = .ok []) :
    GetResolverRuleAssociation client vpcId name log = .error .indexOutOfRange := by
  simp only [GetResolverRuleAssociation, getResolverRuleId, Resolver.bind_run, Resolver.send,
    Resolver.lift_run, h, Check, index0]

/-- When the rule exists, the lookup returns the first association listed for the
VPC and the rule's id, and none when that listing is empty. -/
theorem GetResolverRuleAssociation_of_rule (client : Route53ResolverClient)
    (vpcId name id : String) (log : List Request) (rule : ResolverRule)
    (rules : List ResolverRule) (assocs : List ResolverRuleAssociation)
    (h : client.ListResolverRules name = .ok (rule :: rules)) (hid : rule.Id = some id)
    (ha : client.ListResolverRuleAssociations vpcId id = .ok assocs) :
    GetResolverRuleAssociation client vpcId name log = .ok (assocs.head?,
      log ++ [.listResolverRules name, .listResolverRuleAssociations vpcId id]) :=
  (GetResolverRuleAssociation_eq_ok _ _ _ _ _ _).mpr
    ⟨rule :: rules, rule, id, assocs, h, rfl, hid, ha, rfl, rfl⟩

/-- C6, at an endpoint that lists no rule named `hccp-mskcc-tld-rule`:
`GetResolverRuleAssociation` does not return none, it stops with the index fault of
`output.ResolverRules[0]` in `getResolverRuleId`. -/
theorem GetResolverRuleAssociation_no_rule_faults :
    GetResolverRuleAssociation noSuchRuleResolver "vpc-1" ResolverRuleTldIac []
      = .error .indexOutOfRange := by
  decide

/-- The fallback of `mapTfResourceIdsToPhysicalIds` on the runs in which every
lookup returns, for the internal-TLD and the cross-VPC category: when the lookup by
the current name returns an association, the legacy name is not among the rule names
asked for and the entry at the category's reserved address is that association's id;
when the lookups by the current and by the legacy name both return none, the returned
map has no entry at the reserved address, and the function returns whenever the other
lookups return and what they find has an id. A lookup returns only when the rule name
is listed; see `resolver_rule_fallback_faults` for the names that are not. -/
theorem resolver_rule_fallback (ec2 : Ec2Client) (client : Route53ResolverClient)
    (order : List (String × String)) (so : DescribeStacksOutput)
    (sro : DescribeStackResourcesOutput) (acc : GoMap)
    (hperm : order.Perm logicalIdToTfResourceId)
    (hacc : logicalIdsToPhysicalIds ec2 so sro = .ok acc) :
    (∀ a reqs out log1,
      GetResolverRuleAssociation client (acc.get "VPC") ResolverRuleTldIac [] = .ok (some a, reqs) →
      mapTfResourceIdsToPhysicalIds ec2 client order so sro [] = .ok (out, log1) →
      Request.listResolverRules ResolverRuleTldLegacy ∉ log1 ∧
      out.entry "module.vpc.aws_route53_resolver_rule_association.mskcc_tld" = a.Id) ∧
    (∀ a reqs out log1,
      GetResolverRuleAssociation client (acc.get "VPC") ResolverRuleCrossVpcIac []
        = .ok (some a, reqs) →
      mapTfResourceIdsToPhysicalIds ec2 client order so sro [] = .ok (out, log1) →
      Request.listResolverRules ResolverRuleCrossVpcLegacy ∉ log1 ∧
      out.entry "module.vpc.aws_route53_resolver_rule_association.cross_vpc" = a.Id) ∧
    (∀ r1 r2,
      GetResolverRuleAssociation client (acc.get "VPC") ResolverRuleTldIac [] = .ok (none, r1) →
      GetResolverRuleAssociation client (acc.get "VPC") ResolverRuleTldLegacy [] = .ok (none, r2) →
      (∀ out log1, mapTfResourceIdsToPhysicalIds ec2 client order so sro [] = .ok (out, log1) →
        out.entry "module.vpc.aws_route53_resolver_rule_association.mskcc_tld" = none) ∧
      (∀ ia ri ca rc,
        GetResolverRuleAssociation client (acc.get "VPC") ResolverRuleInternet [] = .ok (ia, ri) →
        lookupCurrentThenLegacy client (acc.get "VPC") ResolverRuleCrossVpcIac
          ResolverRuleCrossVpcLegacy [] = .ok (ca, rc) →
        (∀ x, ia = some x → x.Id ≠ none) → (∀ x, ca = some x → x.Id ≠ none) →
        ∃ out log1, mapTfResourceIdsToPhysicalIds ec2 client order so sro [] = .ok (out, log1))) ∧
    (∀ r1 r2,
      GetResolverRuleAssociation client (acc.get "VPC") ResolverRuleCrossVpcIac []
        = .ok (none, r1) →
      GetResolverRuleAssociation client (acc.get "VPC") ResolverRuleCrossVpcLegacy []
        = .ok (none, r2) →
      (∀ out log1, mapTfResourceIdsToPhysicalIds ec2 client order so sro [] = .ok (out, log1) →
        out.entry "module.vpc.aws_route53_resolver_rule_association.cross_vpc" = none) ∧
      (∀ ia ri ta rt,
        GetResolverRuleAssociation client (acc.get "VPC") ResolverRuleInternet [] = .ok (ia, ri) →
        lookupCurrentThenLegacy client (acc.get "VPC") ResolverRuleTldIac
          ResolverRuleTldLegacy [] = .ok (ta, rt) →
        (∀ x, ia = some x → x.Id ≠ none) → (∀ x, ta = some x → x.Id ≠ none) →
        ∃ out log1, mapTfResourceIdsToPhysicalIds ec2 client order so sro [] = .ok (out, log1))) := by
  -- the entry at a reserved address before any association is entered
  have hproj : ∀ a, a ∉ logicalIdToTfResourceId.map Prod.snd →
      (projectToTfResourceIds acc order GoMap.empty).entry a = none := by
    intro a ha
    rw [projectToTfResourceIds_entry_of_not_mem]
    · rfl
    · intro hin
      exact ha (((hperm.map Prod.snd).mem_iff).mp hin)
  -- a run, unfolded against the accumulator at hand
  have hrun : ∀ out log1, mapTfResourceIdsToPhysicalIds ec2 client order so sro [] = .ok (out, log1) →
      ∃ ia l1 ta l2 ca o1 o2,
        GetResolverRuleAssociation client (acc.get "VPC") ResolverRuleInternet [] = .ok (ia, l1) ∧
        lookupCurrentThenLegacy client (acc.get "VPC") ResolverRuleTldIac ResolverRuleTldLegacy l1
          = .ok (ta, l2) ∧
        lookupCurrentThenLegacy client (acc.get "VPC") ResolverRuleCrossVpcIac
          ResolverRuleCrossVpcLegacy l2 = .ok (ca, log1) ∧
        setAssociationId (projectToTfResourceIds acc order GoMap.empty)
          "module.vpc.aws_route53_resolver_rule_association.internet" ia = .ok o1 ∧
        setAssociationId o1 "module.vpc.aws_route53_resolver_rule_association.mskcc_tld" ta
          = .ok o2 ∧
        setAssociationId o2 "module.vpc.aws_route53_resolver_rule_association.cross_vpc" ca
          = .ok out := by
    intro out log1 h
    obtain ⟨acc1, ia, l1, ta, l2, ca, o1, o2, hacc1, hi, ht, hc, h1, h2, h3⟩ :=
      (mapTfResourceIdsToPhysicalIds_eq_ok _ _ _ _ _ _ _ _).mp h
    rw [hacc] at hacc1
    cases hacc1
    exact ⟨ia, l1, ta, l2, ca, o1, o2, hi, ht, hc, h1, h2, h3⟩
  -- a run, put together from its lookups
  have hbuild : ∀ ia ri ta rt ca rc,
      GetResolverRuleAssociation client (acc.get "VPC") ResolverRuleInternet [] = .ok (ia, ri) →
      lookupCurrentThenLegacy client (acc.get "VPC") ResolverRuleTldIac ResolverRuleTldLegacy []
        = .ok (ta, rt) →
      lookupCurrentThenLegacy client (acc.get "VPC") ResolverRuleCrossVpcIac
        ResolverRuleCrossVpcLegacy [] = .ok (ca, rc) →
      (∀ x, ia = some x → x.Id ≠ none) → (∀ x, ta = some x → x.Id ≠ none) →
      (∀ x, ca = some x → x.Id ≠ none) →
      ∃ out log1, mapTfResourceIdsToPhysicalIds ec2 client order so sro [] = .ok (out, log1) := by
    intro ia ri ta rt ca rc hi ht hc hia hta hca
    obtain ⟨o1, h1⟩ := setAssociationId_total (projectToTfResourceIds acc order GoMap.empty)
      "module.vpc.aws_route53_resolver_rule_association.internet" ia hia
    obtain ⟨o2, h2⟩ := setAssociationId_total o1
      "module.vpc.aws_route53_resolver_rule_association.mskcc_tld" ta hta
    obtain ⟨o3, h3⟩ := setAssociationId_total o2
      "module.vpc.aws_route53_resolver_rule_association.cross_vpc" ca hca
    exact ⟨o3, ri ++ rt ++ rc, (mapTfResourceIdsToPhysicalIds_eq_ok _ _ _ _ _ _ _ _).mpr
      ⟨acc, ia, ri, ta, ri ++ rt, ca, o1, o2, hacc, hi,
        (lookupCurrentThenLegacy_log _ _ _ _ _ _ _).mpr ⟨rt, ht, rfl⟩,
        (lookupCurrentThenLegacy_log _ _ _ _ _ _ _).mpr ⟨rc, hc, rfl⟩, h1, h2, h3⟩⟩
  refine ⟨?_, ?_, ?_, ?_⟩
  · intro a reqs out log1 hcur h
    obtain ⟨ia, l1, ta, l2, ca, o1, o2, hi, ht, hc, h1, h2, h3⟩ := hrun out log1 h
    obtain ⟨hta, hnames⟩ := lookupCurrentThenLegacy_found _ _ _ _ _ _ _ _ _ hcur ht
    subst hta
    constructor
    · intro hin
      rcases lookupCurrentThenLegacy_names _ _ _ _ _ _ _ hc _ hin with h0 | h0 | h0
      · rcases (hnames _).mp h0 with h4 | h4
        · rcases (GetResolverRuleAssociation_names _ _ _ _ _ _ hi _).mp h4 with h5 | h5
          · simp at h5
          · revert h5; decide
        · revert h4; decide
      · revert h0; decide
      · revert h0; decide
    · rw [setAssociationId_entry_other _ _ _ _ _ h3 (by decide),
        setAssociationId_entry_self _ _ _ _ h2]
  · intro a reqs out log1 hcur h
    obtain ⟨ia, l1, ta, l2, ca, o1, o2, hi, ht, hc, h1, h2, h3⟩ := hrun out log1 h
    obtain ⟨hca, hnames⟩ := lookupCurrentThenLegacy_found _ _ _ _ _ _ _ _ _ hcur hc
    subst hca
    constructor
    · intro hin
      rcases (hnames _).mp hin with h0 | h0
      · rcases lookupCurrentThenLegacy_names _ _ _ _ _ _ _ ht _ h0 with h4 | h4 | h4
        · rcases (GetResolverRuleAssociation_names _ _ _ _ _ _ hi _).mp h4 with h5 | h5
          · simp at h5
          · revert h5; decide
        · revert h4; decide
        · revert h4; decide
      · revert h0; decide
    · rw [setAssociationId_entry_self _ _ _ _ h3]
  · intro r1 r2 hcur hleg
    constructor
    · intro out log1 h
      obtain ⟨ia, l1, ta, l2, ca, o1, o2, hi, ht, hc, h1, h2, h3⟩ := hrun out log1 h
      have hnone := lookupCurrentThenLegacy_none _ _ _ _ _ _ hcur hleg l1
      rw [hnone] at ht
      injection ht with ht
      injection ht with hta _
      subst hta
      rw [setAssociationId_entry_other _ _ _ _ _ h3 (by decide),
        setAssociationId_entry_self _ _ _ _ h2,
        setAssociationId_entry_other _ _ _ _ _ h1 (by decide)]
      exact hproj _ (by decide)
    · intro ia ri ca rc hi hc hia hca
      have hnone := lookupCurrentThenLegacy_none _ _ _ _ _ _ hcur hleg []
      exact hbuild ia ri none _ ca rc hi hnone hc hia (fun x hx => by cases hx) hca
  · intro r1 r2 hcur hleg
    constructor
    · intro out log1 h
      obtain ⟨ia, l1, ta, l2, ca, o1, o2, hi, ht, hc, h1, h2, h3⟩ := hrun out log1 h
      have hnone := lookupCurrentThenLegacy_none _ _ _ _ _ _ hcur hleg l2
      rw [hnone] at hc
      injection hc with hc
      injection hc with hca _
      subst hca
      rw [setAssociationId_entry_self _ _ _ _ h3,
        setAssociationId_entry_other _ _ _ _ _ h2 (by decide),
        setAssociationId_entry_other _ _ _ _ _ h1 (by decide)]
      exact hproj _ (by decide)
    · intro ia ri ta rt hi ht hia hta
      have hnone := lookupCurrentThenLegacy_none _ _ _ _ _ _ hcur hleg []
      exact hbuild ia ri ta rt none _ hi ht hnone hia hta (fun x hx => by cases hx)

/-- The fallback at the sample account, where every rule name is listed, the rule
`hccp-mskcc-tld-rule` is associated with the VPC and neither cross-VPC rule is:
`MSKCC TLD` is never asked for, the internal-TLD entry is the association's id, and
there is no cross-VPC entry. -/
theorem resolver_rule_fallback_witness :
    logicalIdToTfResourceId.Perm logicalIdToTfResourceId ∧
    ∃ acc, logicalIdsToPhysicalIds sampleEc2 sampleStacks sampleResources = .ok acc ∧
      ∃ out log1,
        mapTfResourceIdsToPhysicalIds sampleEc2 sampleResolver logicalIdToTfResourceId
          sampleStacks sampleResources [] = .ok (out, log1) ∧
        Request.listResolverRules ResolverRuleTldLegacy ∉ log1 ∧
        out.entry "module.vpc.aws_route53_resolver_rule_association.mskcc_tld"
          = some "rslvr-rrassoc-1" ∧
        out.entry "module.vpc.aws_route53_resolver_rule_association.cross_vpc" = none := by
  obtain ⟨⟨out, log1⟩, h⟩ := exists_of_isOk sample_run_isOk
  obtain ⟨acc, _, _, _, _, _, _, _, hacc, _⟩ :=
    (mapTfResourceIdsToPhysicalIds_eq_ok _ _ _ _ _ _ _ _).mp h
  obtain ⟨htld, _, _, hcross⟩ := resolver_rule_fallback sampleEc2 sampleResolver
    logicalIdToTfResourceId sampleStacks sampleResources acc (List.Perm.refl _) hacc
  have hcur := GetResolverRuleAssociation_of_rule sampleResolver (acc.get "VPC")
    ResolverRuleTldIac ("rule:" ++ ResolverRuleTldIac) [] ⟨some ("rule:" ++ ResolverRuleTldIac)⟩ []
    [⟨some "rslvr-rrassoc-1", some "tld", some ("rule:" ++ ResolverRuleTldIac)⟩] rfl rfl rfl
  have hc1 := GetResolverRuleAssociation_of_rule sampleResolver (acc.get "VPC")
    ResolverRuleCrossVpcIac ("rule:" ++ ResolverRuleCrossVpcIac) []
    ⟨some ("rule:" ++ ResolverRuleCrossVpcIac)⟩ [] [] rfl rfl rfl
  have hc2 := GetResolverRuleAssociation_of_rule sampleResolver (acc.get "VPC")
    ResolverRuleCrossVpcLegacy ("rule:" ++ ResolverRuleCrossVpcLegacy) []
    ⟨some ("rule:" ++ ResolverRuleCrossVpcLegacy)⟩ [] [] rfl rfl rfl
  obtain ⟨hnot, hentry⟩ := htld _ _ out log1 hcur h
  exact ⟨List.Perm.refl _, acc, hacc, out, log1, h, hnot, hentry,
    (hcross _ _ hc1 hc2).1 out log1 h⟩

/-- A computation whose fault is known stopped with it. -/
theorem eq_error_of_faultOf {ε α : Type} {x : Except ε α} {e : ε} (h : faultOf x = some e) :
    x = .error e := by
  cases x with
  | ok a => cases h
  | error e1 =>
    injection h with h
    rw [h]

/-- Whatever the stack and the iteration order: when the accumulator part and the
internet lookup return and no rule is listed under the current internal-TLD name,
`mapTfResourceIdsToPhysicalIds` stops with the index fault, the legacy name never
being tried. -/
theorem mapTfResourceIdsToPhysicalIds_of_no_tld_rule (ec2 : Ec2Client)
    (client : Route53ResolverClient) (order : List (String × String))
    (so : DescribeStacksOutput) (sro : DescribeStackResourcesOutput) (acc : GoMap)
    (ia : Option ResolverRuleAssociation) (log l1 : List Request)
    (hacc : logicalIdsToPhysicalIds ec2 so sro = .ok acc)
    (hi : GetResolverRuleAssociation client (acc.get "VPC") ResolverRuleInternet log
      = .ok (ia, l1))
    (hrule : client.ListResolverRules ResolverRuleTldIac = .ok []) :
    mapTfResourceIdsToPhysicalIds ec2 client order so sro log = .error .indexOutOfRange := by
  have ht := GetResolverRuleAssociation_of_no_rule client (acc.get "VPC") ResolverRuleTldIac l1
    hrule
  simp only [mapTfResourceIdsToPhysicalIds, lookupCurrentThenLegacy, Resolver.bind_run,
    Resolver.lift_run, hacc, hi, ht]

/-- C7, at two endpoints where no rule is listed under the current internal-TLD name
`hccp-mskcc-tld-rule`. At the first no rule is listed under the legacy name either:
neither lookup gives an association, and `mapTfResourceIdsToPhysicalIds` does not
return a map without the category's entry, it stops with the index fault of
`output.ResolverRules[0]`. At the second the rule `MSKCC TLD` is listed and
associated with the VPC: the legacy lookup alone returns that association, and the
function stops with the same fault instead of falling back to it. -/
theorem resolver_rule_fallback_faults :
    mapTfResourceIdsToPhysicalIds sampleEc2 noTldRuleResolver logicalIdToTfResourceId
      sampleStacks sampleResources [] = .error .indexOutOfRange ∧
    GetResolverRuleAssociation legacyOnlyResolver "vpc-1" ResolverRuleTldLegacy []
      = .ok (some ⟨some "rslvr-rrassoc-9", some "tld-legacy", some "rule:MSKCC TLD"⟩,
          [.listResolverRules "MSKCC TLD",
            .listResolverRuleAssociations "vpc-1" "rule:MSKCC TLD"]) ∧
    mapTfResourceIdsToPhysicalIds sampleEc2 legacyOnlyResolver logicalIdToTfResourceId
      sampleStacks sampleResources [] = .error .indexOutOfRange := by
  refine ⟨eq_error_of_faultOf (by decide), by decide, eq_error_of_faultOf (by decide)⟩

/-! ## Parameters and tags -/

/-- One step of the parameter loop: the key and the value it stores. -/
theorem collectParams_cons (p : Parameter) (ps : List Parameter) (m m1 : GoMap) :
    collectParams (p :: ps) m = .ok m1 ↔
      ∃ k v, p.ParameterKey = some k ∧
        (p.ResolvedValue = some v ∨ (p.ResolvedValue = none ∧ p.ParameterValue = some v)) ∧
        collectParams ps (m.set k v) = .ok m1 := by
  cases hr : p.ResolvedValue with
  | some r =>
    simp only [collectParams, hr, Except_bind_eq_ok, deref_eq_ok]
    constructor
    · rintro ⟨k, hk, h⟩; exact ⟨k, r, hk, Or.inl rfl, h⟩
    · rintro ⟨k, v, hk, (hv | ⟨hv, _⟩), h⟩
      · cases hv; exact ⟨k, hk, h⟩
      · cases hv
  | none =>
    simp only [collectParams, hr, Except_bind_eq_ok, deref_eq_ok]
    constructor
    · rintro ⟨k, hk, v, hv, h⟩; exact ⟨k, v, hk, Or.inr ⟨trivial, hv⟩, h⟩
    · rintro ⟨k, v, hk, (hv | ⟨_, hv⟩), h⟩
      · cases hv
      · exact ⟨k, hk, v, hv, h⟩

/-- The parameter loop returns when every parameter has a key and a value. -/
theorem collectParams_total (ps : List Parameter) :
    ∀ m : GoMap,
      (∀ p ∈ ps, p.ParameterKey ≠ none ∧ (p.ResolvedValue ≠ none ∨ p.ParameterValue ≠ none)) →
      ∃ m1, collectParams ps m = .ok m1 := by
  induction ps with
  | nil => intro m _; exact ⟨m, rfl⟩
  | cons p ps ih =>
    intro m hpop
    obtain ⟨hk, hv⟩ := hpop p (List.mem_cons_self _ _)
    obtain ⟨k, hk1⟩ := Option.ne_none_iff_exists'.mp hk
    have hrest := fun q hq => hpop q (List.mem_cons_of_mem _ hq)
    cases hr : p.ResolvedValue with
    | some r =>
      obtain ⟨m1, h1⟩ := ih (m.set k r) hrest
      exact ⟨m1, (collectParams_cons _ _ _ _).mpr ⟨k, r, hk1, Or.inl hr, h1⟩⟩
    | none =>
      have hv1 : p.ParameterValue ≠ none := by
        rcases hv with h0 | h0
        · exact absurd hr h0
        · exact h0
      obtain ⟨v, hv2⟩ := Option.ne_none_iff_exists'.mp hv1
      obtain ⟨m1, h1⟩ := ih (m.set k v) hrest
      exact ⟨m1, (collectParams_cons _ _ _ _).mpr ⟨k, v, hk1, Or.inr ⟨hr, hv2⟩, h1⟩⟩

theorem specParameterValue_of_not_mem (ps : List Parameter) (k : String)
    (h : some k ∉ ps.map Parameter.ParameterKey) : specParameterValue ps k = "" := by
  unfold specParameterValue
  have : ps.find? (fun p => decide (p.ParameterKey = some k)) = none := by
    rw [List.find?_eq_none]
    intro p hp
    simp only [decide_eq_true_eq]
    intro e
    exact h (List.mem_map.mpr ⟨p, hp, e⟩)
  rw [this]

/-- With unique keys, the map the parameter loop builds holds, under every key of a
parameter, what the specification's rule gives, and leaves other keys alone. -/
theorem collectParams_get (k : String) (ps : List Parameter) :
    ∀ (m m1 : GoMap), collectParams ps m = .ok m1 →
      (ps.map Parameter.ParameterKey).Nodup →
      m1.get k = if some k ∈ ps.map Parameter.ParameterKey then specParameterValue ps k
        else m.get k := by
  induction ps with
  | nil =>
    intro m m1 h _
    simp only [collectParams] at h
    cases h
    simp
  | cons p ps ih =>
    intro m m1 h hnd
    obtain ⟨kk, v, hk, hv, h1⟩ := (collectParams_cons _ _ _ _).mp h
    rw [List.map_cons, List.nodup_cons] at hnd
    obtain ⟨hnotin, hnd⟩ := hnd
    have ih1 := ih _ _ h1 hnd
    by_cases hkk : kk = k
    · subst hkk
      rw [hk] at hnotin
      rw [ih1, if_neg hnotin, if_pos (by simp [hk])]
      have hfind : (p :: ps).find? (fun q => decide (q.ParameterKey = some kk)) = some p := by
        simp [List.find?, hk]
      unfold specParameterValue
      rw [hfind]
      rcases hv with hv | ⟨hr, hv⟩
      · simp [hv]
      · simp [hr, hv]
    · have hfind : (p :: ps).find? (fun q => decide (q.ParameterKey = some k))
          = ps.find? (fun q => decide (q.ParameterKey = some k)) := by
        simp [List.find?, hk, hkk]
      have hspec : specParameterValue (p :: ps) k = specParameterValue ps k := by
        unfold specParameterValue
        rw [hfind]
      have hmem : some k ∈ List.map Parameter.ParameterKey (p :: ps) ↔
          some k ∈ List.map Parameter.ParameterKey ps := by
        simp [hk, Ne.symm hkk]
      rw [ih1, hspec]
      by_cases hin : some k ∈ List.map Parameter.ParameterKey ps
      · rw [if_pos hin, if_pos (hmem.mpr hin)]
      · rw [if_neg hin, if_neg (fun h0 => hin (hmem.mp h0))]
        simp [Ne.symm hkk]

/-- From the empty map: every key reads as the specification's rule says. -/
theorem collectParams_get_empty (ps : List Parameter) (m1 : GoMap)
    (h : collectParams ps GoMap.empty = .ok m1)
    (hnd : (ps.map Parameter.ParameterKey).Nodup) (k : String) :
    m1.get k = specParameterValue ps k := by
  rw [collectParams_get k ps _ _ h hnd]
  split
  · rfl
  · rename_i hn
    rw [specParameterValue_of_not_mem _ _ hn]
    rfl

/-- The record `initTfVarsFromStackParams` builds, field by field, from the map of
the parameter loop. -/
theorem initTfVarsFromStackParams_of_params (stack : Stack) (others : List Stack)
    (params : GoMap) (h : collectParams stack.Parameters GoMap.empty = .ok params) :
    ∃ tfvars, initTfVarsFromStackParams ⟨stack :: others⟩ = .ok tfvars ∧
      tfvars.SubnetCidrBits = params.get "SubnetCidrBits" ∧
      tfvars.OrganizationId = params.get "OrganizationId" ∧
      tfvars.DomainNameServers = [params.get "DomainNameServers"] ∧
      tfvars.DomainName = params.get "DomainName" ∧
      tfvars.IpRange = params.get "IpRange" ∧
      tfvars.MasterAccountId = params.get "MasterAccountId" ∧
      tfvars.SharedEnvironment = params.get "SharedEnvironment" ∧
      tfvars.TransitGatewayID = params.get "TransitGatewayID" ∧
      tfvars.TgwRouteTableID = params.get "TgwRouteTableID" ∧
      tfvars.TgwMSKRouteTableID = params.get "TgwMSKRouteTableID" ∧
      tfvars.VpcShareOU = params.get "VpcShareOU" ∧
      tfvars.DhcpOptions = params.get "DhcpOptions" ∧
      tfvars.InternetResolverRuleId = params.get "InternetResolverRuleId" ∧
      tfvars.CrossVpcResolverRuleId = params.get "CrossVpcResolverRuleId" ∧
      tfvars.MskccTldResolverRuleId = params.get "MskccTldResolverRuleId" ∧
      tfvars.InternetResolverRuleAssocName = params.get "InternetResolverRuleAssocName" ∧
      tfvars.CrossVPCResolverRuleAssocName = params.get "CrossVPCResolverRuleAssocName" ∧
      tfvars.MskccTldResolverRuleAssocName = params.get "MskccTldResolverRuleAssocName" ∧
      tfvars.TgwAttachmentDnsSupport = params.get "TgwAttachmentDnsSupport" := by
  cases hres : initTfVarsFromStackParams ⟨stack :: others⟩ with
  | error e =>
    simp [initTfVarsFromStackParams, index0, h, bind, Except.bind, pure, Except.pure] at hres
  | ok tfvars =>
    simp only [initTfVarsFromStackParams, index0, h, bind, Except.bind, pure, Except.pure]
      at hres
    injection hres with hres
    subst hres
    exact ⟨_, rfl, rfl, rfl, rfl, rfl, rfl, rfl, rfl, rfl, rfl, rfl, rfl, rfl, rfl, rfl, rfl,
      rfl, rfl, rfl, rfl⟩

/-! ## Claims on the variables record -/

/-- C8: for a stack snapshot with unique parameter keys (every parameter carrying
its key and a value), `initTfVarsFromStackParams` returns a record whose every
parameter-backed field is, for the key of that field, the resolved value of the
parameter when present, else its raw value, and the empty string when the stack has
no such parameter. -/
theorem initTfVarsFromStackParams_fields (stack : Stack) (others : List Stack)
    (hunique : (stack.Parameters.map Parameter.ParameterKey).Nodup)
    (hpop : ∀ p ∈ stack.Parameters,
      p.ParameterKey ≠ none ∧ (p.ResolvedValue ≠ none ∨ p.ParameterValue ≠ none)) :
    ∃ tfvars, initTfVarsFromStackParams ⟨stack :: others⟩ = .ok tfvars ∧
      tfvars.SubnetCidrBits = specParameterValue stack.Parameters "SubnetCidrBits" ∧
      tfvars.OrganizationId = specParameterValue stack.Parameters "OrganizationId" ∧
      tfvars.DomainNameServers = [specParameterValue stack.Parameters "DomainNameServers"] ∧
      tfvars.DomainName = specParameterValue stack.Parameters "DomainName" ∧
      tfvars.IpRange = specParameterValue stack.Parameters "IpRange" ∧
      tfvars.MasterAccountId = specParameterValue stack.Parameters "MasterAccountId" ∧
      tfvars.SharedEnvironment = specParameterValue stack.Parameters "SharedEnvironment" ∧
      tfvars.TransitGatewayID = specParameterValue stack.Parameters "TransitGatewayID" ∧
      tfvars.TgwRouteTableID = specParameterValue stack.Parameters "TgwRouteTableID" ∧
      tfvars.TgwMSKRouteTableID = specParameterValue stack.Parameters "TgwMSKRouteTableID" ∧
      tfvars.VpcShareOU = specParameterValue stack.Parameters "VpcShareOU" ∧
      tfvars.DhcpOptions = specParameterValue stack.Parameters "DhcpOptions" ∧
      tfvars.InternetResolverRuleId
        = specParameterValue stack.Parameters "InternetResolverRuleId" ∧
      tfvars.CrossVpcResolverRuleId
        = specParameterValue stack.Parameters "CrossVpcResolverRuleId" ∧
      tfvars.MskccTldResolverRuleId
        = specParameterValue stack.Parameters "MskccTldResolverRuleId" ∧
      tfvars.InternetResolverRuleAssocName
        = specParameterValue stack.Parameters "InternetResolverRuleAssocName" ∧
      tfvars.CrossVPCResolverRuleAssocName
        = specParameterValue stack.Parameters "CrossVPCResolverRuleAssocName" ∧
      tfvars.MskccTldResolverRuleAssocName
        = specParameterValue stack.Parameters "MskccTldResolverRuleAssocName" ∧
      tfvars.TgwAttachmentDnsSupport
        = specParameterValue stack.Parameters "TgwAttachmentDnsSupport" := by
  obtain ⟨params, hparams⟩ := collectParams_total stack.Parameters GoMap.empty hpop
  have hget := collectParams_get_empty _ _ hparams hunique
  have hrec := initTfVarsFromStackParams_of_params stack others params hparams
  simp only [hget] at hrec
  exact hrec

/-- C8 at the sample stack: `TgwRouteTableID` has the raw value `/tgw/route-table`
and the resolved value `tgw-rtb-1`, `IpRange` has a raw value only, and there is no
`DomainName`. -/
theorem initTfVarsFromStackParams_fields_witness :
    ∃ tfvars, initTfVarsFromStackParams sampleStacks = .ok tfvars ∧
      tfvars.TgwRouteTableID = "tgw-rtb-1" ∧ tfvars.IpRange = "10.0.0.0/16" ∧
      tfvars.DomainName = "" := by
  obtain ⟨tfvars, h, _, _, _, hd, hi, _, _, _, ht, _⟩ :=
    initTfVarsFromStackParams_fields
      { Parameters := [
          ⟨some "IpRange", some "10.0.0.0/16", none⟩,
          ⟨some "TgwRouteTableID", some "/tgw/route-table", some "tgw-rtb-1"⟩,
          ⟨some "TgwMSKRouteTableID", some "/tgw/msk-route-table", some "tgw-rtb-2"⟩ ],
        Tags := [⟨some "env", some "prod"⟩] } [] (by decide) (by decide)
  exact ⟨tfvars, h, ht.trans (by decide), hi.trans (by decide), hd.trans (by decide)⟩

theorem rawParameterValue_eq_spec (ps : List Parameter) (k : String)
    (h : ∀ p ∈ ps, p.ResolvedValue = none) :
    specParameterValue ps k = rawParameterValue ps k := by
  unfold specParameterValue rawParameterValue
  cases hf : ps.find? (fun p => decide (p.ParameterKey = some k)) with
  | none => rfl
  | some p =>
    have hp : p ∈ ps := List.mem_of_find?_eq_some hf
    simp [h p hp]

/-- One step of the tag loop. -/
theorem collectTags_cons (t : Tag) (ts : List Tag) (m m1 : GoMap) :
    collectTags (t :: ts) m = .ok m1 ↔
      ∃ k v, t.Key = some k ∧ t.Value = some v ∧ collectTags ts (m.set k v) = .ok m1 := by
  simp only [collectTags, Except_bind_eq_ok, deref_eq_ok]
  constructor
  · rintro ⟨k, hk, v, hv, h⟩; exact ⟨k, v, hk, hv, h⟩
  · rintro ⟨k, v, hk, hv, h⟩; exact ⟨k, hk, v, hv, h⟩

/-- The tag loop returns when every tag has a key and a value. -/
theorem collectTags_total (ts : List Tag) :
    ∀ m : GoMap, (∀ t ∈ ts, t.Key ≠ none ∧ t.Value ≠ none) →
      ∃ m1, collectTags ts m = .ok m1 := by
  induction ts with
  | nil => intro m _; exact ⟨m, rfl⟩
  | cons t ts ih =>
    intro m hpop
    obtain ⟨hk, hv⟩ := hpop t (List.mem_cons_self _ _)
    obtain ⟨k, hk1⟩ := Option.ne_none_iff_exists'.mp hk
    obtain ⟨v, hv1⟩ := Option.ne_none_iff_exists'.mp hv
    obtain ⟨m1, h1⟩ := ih (m.set k v) (fun q hq => hpop q (List.mem_cons_of_mem _ hq))
    exact ⟨m1, (collectTags_cons _ _ _ _).mpr ⟨k, v, hk1, hv1, h1⟩⟩

/-- With unique tag keys, the map the tag loop builds has exactly the tags as new
entries. -/
theorem collectTags_entry (ts : List Tag) :
    ∀ (m m1 : GoMap), collectTags ts m = .ok m1 → (ts.map Tag.Key).Nodup →
      ∀ k v, m1.entry k = some v ↔
        ((⟨some k, some v⟩ : Tag) ∈ ts ∨ (some k ∉ ts.map Tag.Key ∧ m.entry k = some v)) := by
  induction ts with
  | nil =>
    intro m m1 h _ k v
    simp only [collectTags] at h
    cases h
    simp
  | cons t ts ih =>
    intro m m1 h hnd k v
    obtain ⟨kk, vv, hk, hv, h1⟩ := (collectTags_cons _ _ _ _).mp h
    rw [List.map_cons, List.nodup_cons] at hnd
    obtain ⟨hnotin, hnd⟩ := hnd
    have ht : t = ⟨some kk, some vv⟩ := by
      cases t
      simp only at hk hv
      rw [hk, hv]
    subst ht
    rw [ih _ _ h1 hnd k v]
    by_cases hkk : k = kk
    · subst hkk
      have hno : ∀ w, (⟨some k, some w⟩ : Tag) ∉ ts := by
        intro w hw
        exact hnotin (List.mem_map.mpr ⟨_, hw, rfl⟩)
      constructor
      · rintro (h0 | ⟨_, h0⟩)
        · exact absurd h0 (hno v)
        · simp only [GoMap.entry_set, if_true] at h0
          injection h0 with h0
          subst h0
          exact Or.inl (List.mem_cons_self _ _)
      · rintro (h0 | ⟨h0, _⟩)
        · rcases List.mem_cons.mp h0 with h2 | h2
          · injection h2 with _ h3
            injection h3 with h3
            subst h3
            exact Or.inr ⟨hnotin, by simp⟩
          · exact absurd h2 (hno v)
        · exact absurd (by simp) h0
    · have hmem : some k ∈ List.map Tag.Key (⟨some kk, some vv⟩ :: ts) ↔
          some k ∈ List.map Tag.Key ts := by
        simp [hkk]
      have hin : (⟨some k, some v⟩ : Tag) ∈ (⟨some kk, some vv⟩ : Tag) :: ts ↔
          (⟨some k, some v⟩ : Tag) ∈ ts := by
        simp [hkk]
      rw [hmem, hin]
      simp [hkk]

/-- With no association under any of the five rule names,
`mapResolverRuleDetailsToTfvars` returns the record it was given. -/
theorem mapResolverRuleDetailsToTfvars_unchanged (sro : DescribeStackResourcesOutput)
    (client : Route53ResolverClient) (tfvars : TfVars) (vpcId : String) (log : List Request)
    (hvpc : getPhysicalResourceIdByLogicalResourceId sro.StackResources "VPC" = .ok vpcId)
    (hlookup : ∀ name ∈ [ResolverRuleInternet, ResolverRuleTldIac, ResolverRuleTldLegacy,
        ResolverRuleCrossVpcIac, ResolverRuleCrossVpcLegacy],
      ∃ reqs, GetResolverRuleAssociation client vpcId name [] = .ok (none, reqs)) :
    ∃ log1, mapResolverRuleDetailsToTfvars sro client tfvars log = .ok (tfvars, log1) := by
  obtain ⟨ri, hi⟩ := hlookup ResolverRuleInternet (by simp)
  obtain ⟨rt1, ht1⟩ := hlookup ResolverRuleTldIac (by simp)
  obtain ⟨rt2, ht2⟩ := hlookup ResolverRuleTldLegacy (by simp)
  obtain ⟨rc1, hc1⟩ := hlookup ResolverRuleCrossVpcIac (by simp)
  obtain ⟨rc2, hc2⟩ := hlookup ResolverRuleCrossVpcLegacy (by simp)
  simp only [mapResolverRuleDetailsToTfvars, Resolver.bind_eq_ok, Resolver.lift_eq_ok,
    Resolver.pure_eq_ok]
  exact ⟨_, vpcId, log, ⟨vpcId, hvpc, rfl⟩, none, log ++ ri,
    (GetResolverRuleAssociation_log _ _ _ _ _ _).mpr ⟨ri, hi, rfl⟩,
    none, _, lookupCurrentThenLegacy_none _ _ _ _ _ _ ht1 ht2 _,
    none, _, lookupCurrentThenLegacy_none _ _ _ _ _ _ hc1 hc2 _,
    tfvars, _, ⟨tfvars, rfl, rfl⟩, tfvars, _, ⟨tfvars, rfl, rfl⟩, tfvars, _,
    ⟨tfvars, rfl, rfl⟩, rfl⟩

/-- C9: with the filesystem as explicit state and `<cwd>/terraform.tfvars.json`
already there, `writeTfvarsToFile` stops with a fatal error and leaves the
filesystem, that file's contents included, as it was; when the path does not exist
(and the record marshals and the file can be created) the file is created holding
the record's JSON indented by four spaces, every other path untouched; the
filesystem changes only when the path did not exist. -/
theorem writeTfvarsToFile_refuses_overwrite (json : Json) (tfvars : TfVars) (fs : FileSystem)
    (path : String) (hcwd : fs.Getwd = .ok path) :
    (∀ contents, fs.files (path ++ "/terraform.tfvars.json") = some contents →
      ∃ msg, writeTfvarsToFile json tfvars fs = (.error (.fatal msg), fs)) ∧
    (fs.files (path ++ "/terraform.tfvars.json") = none →
      ∀ j, json.Marshal tfvars = .ok j →
        fs.creatable (path ++ "/terraform.tfvars.json") = true →
        (writeTfvarsToFile json tfvars fs).1 = .ok () ∧
        (writeTfvarsToFile json tfvars fs).2.files (path ++ "/terraform.tfvars.json")
          = some (json.Indent j "" "    ") ∧
        ∀ p, p ≠ path ++ "/terraform.tfvars.json" →
          (writeTfvarsToFile json tfvars fs).2.files p = fs.files p) ∧
    ((writeTfvarsToFile json tfvars fs).2.files ≠ fs.files →
      fs.files (path ++ "/terraform.tfvars.json") = none) := by
  have hexists : ∀ contents, fs.files (path ++ "/terraform.tfvars.json") = some contents →
      ∃ msg, writeTfvarsToFile json tfvars fs = (.error (.fatal msg), fs) := by
    intro contents hfile
    unfold writeTfvarsToFile
    cases hm : json.Marshal tfvars with
    | error e => exact ⟨e, by simp [Check]⟩
    | ok j =>
      exact ⟨"cli.go: writeTfvarsToFile(tfvars TfVars): tfvars file already exists: "
        ++ (path ++ "/terraform.tfvars.json"), by simp [Check, hcwd, FileSystem.Stat, hfile]⟩
  refine ⟨hexists, ?_, ?_⟩
  · intro hfile j hj hcreate
    have hrun : writeTfvarsToFile json tfvars fs
        = (.ok (), (fs.write (path ++ "/terraform.tfvars.json") "").write
            (path ++ "/terraform.tfvars.json") (json.Indent j "" "    ")) := by
      simp [writeTfvarsToFile, Check, hj, hcwd, FileSystem.Stat, hfile, FileSystem.Create,
        hcreate]
    rw [hrun]
    refine ⟨rfl, ?_, ?_⟩
    · simp [FileSystem.write]
    · intro p hp
      simp [FileSystem.write, hp]
  · intro hchange
    cases hfile : fs.files (path ++ "/terraform.tfvars.json") with
    | none => rfl
    | some contents =>
      obtain ⟨msg, hres⟩ := hexists contents hfile
      rw [hres] at hchange
      exact absurd rfl hchange

/-- C9 at a working directory that holds a hand-edited variables file, and at one
that does not. -/
theorem writeTfvarsToFile_refuses_overwrite_witness :
    (∃ msg, writeTfvarsToFile sampleJson sampleTfVars occupiedFileSystem
      = (.error (.fatal msg), occupiedFileSystem)) ∧
    (writeTfvarsToFile sampleJson sampleTfVars occupiedFileSystem).2.files
      "/work/terraform.tfvars.json" = some "hand-edited" ∧
    (writeTfvarsToFile sampleJson sampleTfVars freshFileSystem).1 = .ok () ∧
    (writeTfvarsToFile sampleJson sampleTfVars freshFileSystem).2.files
      "/work/terraform.tfvars.json" = some "    4,10.0.0.0/16" ∧
    (writeTfvarsToFile sampleJson sampleTfVars freshFileSystem).2.files "/work/notes.txt"
      = some "keep" := by
  have hocc := (writeTfvarsToFile_refuses_overwrite sampleJson sampleTfVars occupiedFileSystem
    "/work" rfl).1 "hand-edited" (by decide)
  have hfresh := (writeTfvarsToFile_refuses_overwrite sampleJson sampleTfVars freshFileSystem
    "/work" rfl).2.1 (by decide) "4,10.0.0.0/16" (by decide) rfl
  obtain ⟨msg, hmsg⟩ := hocc
  refine ⟨⟨msg, hmsg⟩, ?_, hfresh.1, hfresh.2.1, ?_⟩
  · rw [hmsg]; rfl
  · rw [hfresh.2.2 "/work/notes.txt" (by decide)]; rfl

/-- C10: for a stack whose parameters carry no resolved value and none of the keys
`InternetResolverRuleId`, `CrossVpcResolverRuleId`, `MskccTldResolverRuleId`, and an
endpoint where none of the five rule names has an association with the VPC, the
record built by `initTfVarsFromStackParams`, `mapTagsToTfvars` and
`mapResolverRuleDetailsToTfvars` has every parameter-backed field equal to the raw
value of its parameter, `Tags` holding exactly the tag pairs of the stack, and the
three resolver-rule-id fields empty; `mapResolverRuleDetailsToTfvars` returns the
record it is given. -/
theorem genvars_record_without_associations (client : Route53ResolverClient)
    (stack : Stack) (others : List Stack) (sro : DescribeStackResourcesOutput)
    (vpcId : String)
    (hunique : (stack.Parameters.map Parameter.ParameterKey).Nodup)
    (hpop : ∀ p ∈ stack.Parameters, p.ParameterKey ≠ none ∧ p.ParameterValue ≠ none)
    (hraw : ∀ p ∈ stack.Parameters, p.ResolvedValue = none)
    (hkeys : some "InternetResolverRuleId" ∉ stack.Parameters.map Parameter.ParameterKey ∧
      some "CrossVpcResolverRuleId" ∉ stack.Parameters.map Parameter.ParameterKey ∧
      some "MskccTldResolverRuleId" ∉ stack.Parameters.map Parameter.ParameterKey)
    (htagunique : (stack.Tags.map Tag.Key).Nodup)
    (htagpop : ∀ t ∈ stack.Tags, t.Key ≠ none ∧ t.Value ≠ none)
    (hvpc : getPhysicalResourceIdByLogicalResourceId sro.StackResources "VPC" = .ok vpcId)
    (hlookup : ∀ name ∈ [ResolverRuleInternet, ResolverRuleTldIac, ResolverRuleTldLegacy,
        ResolverRuleCrossVpcIac, ResolverRuleCrossVpcLegacy],
      ∃ reqs, GetResolverRuleAssociation client vpcId name [] = .ok (none, reqs)) :
    (∃ tfvars log1, genvarsRecord client ⟨stack :: others⟩ sro [] = .ok (tfvars, log1) ∧
      tfvars.SubnetCidrBits = rawParameterValue stack.Parameters "SubnetCidrBits" ∧
      tfvars.OrganizationId = rawParameterValue stack.Parameters "OrganizationId" ∧
      tfvars.DomainNameServers = [rawParameterValue stack.Parameters "DomainNameServers"] ∧
      tfvars.DomainName = rawParameterValue stack.Parameters "DomainName" ∧
      tfvars.IpRange = rawParameterValue stack.Parameters "IpRange" ∧
      tfvars.MasterAccountId = rawParameterValue stack.Parameters "MasterAccountId" ∧
      tfvars.SharedEnvironment = rawParameterValue stack.Parameters "SharedEnvironment" ∧
      tfvars.TransitGatewayID = rawParameterValue stack.Parameters "TransitGatewayID" ∧
      tfvars.TgwRouteTableID = rawParameterValue stack.Parameters "TgwRouteTableID" ∧
      tfvars.TgwMSKRouteTableID = rawParameterValue stack.Parameters "TgwMSKRouteTableID" ∧
      tfvars.VpcShareOU = rawParameterValue stack.Parameters "VpcShareOU" ∧
      tfvars.DhcpOptions = rawParameterValue stack.Parameters "DhcpOptions" ∧
      tfvars.InternetResolverRuleAssocName
        = rawParameterValue stack.Parameters "InternetResolverRuleAssocName" ∧
      tfvars.CrossVPCResolverRuleAssocName
        = rawParameterValue stack.Parameters "CrossVPCResolverRuleAssocName" ∧
      tfvars.MskccTldResolverRuleAssocName
        = rawParameterValue stack.Parameters "MskccTldResolverRuleAssocName" ∧
      tfvars.TgwAttachmentDnsSupport
        = rawParameterValue stack.Parameters "TgwAttachmentDnsSupport" ∧
      (∀ k v, tfvars.Tags.entry k = some v ↔ (⟨some k, some v⟩ : Tag) ∈ stack.Tags) ∧
      tfvars.InternetResolverRuleId = "" ∧
      tfvars.CrossVpcResolverRuleId = "" ∧
      tfvars.MskccTldResolverRuleId = "") ∧
    (∀ tfvars log, ∃ log1,
      mapResolverRuleDetailsToTfvars sro client tfvars log = .ok (tfvars, log1)) := by
  refine ⟨?_, fun tfvars log =>
    mapResolverRuleDetailsToTfvars_unchanged sro client tfvars vpcId log hvpc hlookup⟩
  obtain ⟨params, hparams⟩ := collectParams_total stack.Parameters GoMap.empty
    (fun p hp => ⟨(hpop p hp).1, Or.inr (hpop p hp).2⟩)
  have hget : ∀ k, params.get k = rawParameterValue stack.Parameters k := fun k =>
    (collectParams_get_empty _ _ hparams hunique k).trans (rawParameterValue_eq_spec _ _ hraw)
  have hempty : ∀ k, some k ∉ stack.Parameters.map Parameter.ParameterKey →
      params.get k = "" := fun k hk =>
    (collectParams_get_empty _ _ hparams hunique k).trans (specParameterValue_of_not_mem _ _ hk)
  obtain ⟨tf1, hinit, f1, f2, f3, f4, f5, f6, f7, f8, f9, f10, f11, f12, f13, f14, f15, f16,
    f17, f18, f19⟩ := initTfVarsFromStackParams_of_params stack others params hparams
  obtain ⟨tags, htags⟩ := collectTags_total stack.Tags GoMap.empty htagpop
  have hmap : mapTagsToTfvars ⟨stack :: others⟩ tf1 = .ok { tf1 with Tags := tags } := by
    simp [mapTagsToTfvars, index0, htags, bind, Except.bind, pure, Except.pure]
  obtain ⟨log1, hres⟩ := mapResolverRuleDetailsToTfvars_unchanged sro client
    { tf1 with Tags := tags } vpcId [] hvpc hlookup
  have hrun : genvarsRecord client ⟨stack :: others⟩ sro [] = .ok ({ tf1 with Tags := tags }, log1) := by
    simp only [genvarsRecord, Resolver.bind_eq_ok, Resolver.lift_eq_ok, Resolver.pure_eq_ok]
    exact ⟨tf1, [], ⟨tf1, hinit, rfl⟩, _, [], ⟨_, hmap, rfl⟩, _, log1, hres, rfl⟩
  refine ⟨_, log1, hrun, ?_⟩
  refine ⟨f1.trans (hget _), f2.trans (hget _), ?_, f4.trans (hget _), f5.trans (hget _),
    f6.trans (hget _), f7.trans (hget _), f8.trans (hget _), f9.trans (hget _),
    f10.trans (hget _), f11.trans (hget _), f12.trans (hget _), f16.trans (hget _),
    f17.trans (hget _), f18.trans (hget _), f19.trans (hget _), ?_, f13.trans (hempty _ hkeys.1),
    f14.trans (hempty _ hkeys.2.1), f15.trans (hempty _ hkeys.2.2)⟩
  · show tf1.DomainNameServers = _
    rw [f3, hget]
  · intro k v
    show tags.entry k = some v ↔ _
    rw [collectTags_entry _ _ _ htags htagunique k v]
    simp

/-- C10 at the scenario of the specification: parameters `SubnetCidrBits = 4` and
`IpRange = 10.0.0.0/16` without resolved values, the tag `env = prod`, and no
association under any rule name. -/
theorem genvars_record_without_associations_witness :
    ∃ tfvars log1,
      genvarsRecord unassociatedResolver scenarioStacks sampleResources [] = .ok (tfvars, log1) ∧
      tfvars.SubnetCidrBits = "4" ∧ tfvars.IpRange = "10.0.0.0/16" ∧
      (∀ k v, tfvars.Tags.entry k = some v ↔ (k = "env" ∧ v = "prod")) ∧
      tfvars.InternetResolverRuleId = "" ∧ tfvars.CrossVpcResolverRuleId = "" ∧
      tfvars.MskccTldResolverRuleId = "" := by
  have hall := genvars_record_without_associations unassociatedResolver
    { Parameters := [
        ⟨some "SubnetCidrBits", some "4", none⟩,
        ⟨some "IpRange", some "10.0.0.0/16", none⟩ ],
      Tags := [⟨some "env", some "prod"⟩] } [] sampleResources "vpc-1"
    (by decide) (by decide) (by decide) (by decide) (by decide) (by decide) (by decide)
    (fun name _ => ⟨_, GetResolverRuleAssociation_of_rule unassociatedResolver "vpc-1" name
      ("rule:" ++ name) [] ⟨some ("rule:" ++ name)⟩ [] [] rfl rfl rfl⟩)
  obtain ⟨⟨tfvars, log1, hrun, hs, _, _, _, hi, _, _, _, _, _, _, _, _, _, _, _, htags, h1, h2,
    h3⟩, _⟩ := hall
  refine ⟨tfvars, log1, hrun, hs.trans (by decide), hi.trans (by decide), ?_, h1, h2, h3⟩
  intro k v
  rw [htags k v]
  simp

/-! ## Logical ids without a record -/

/-- A logical id that no stack resource carries is no key after the first loop. -/
theorem seedLogicalIds_entry_of_absent (rs : List StackResource) (m1 : GoMap)
    (h : seedLogicalIds rs GoMap.empty = .ok m1) (k : String)
    (hk : some k ∉ rs.map StackResource.LogicalResourceId) : m1.entry k = none := by
  by_contra hne
  rcases seedLogicalIds_hasKey rs _ _ h k hne with h0 | ⟨_, h1⟩
  · exact h0 rfl
  · exact hk h1

theorem seedLogicalIds_get_of_absent (rs : List StackResource) (m1 : GoMap)
    (h : seedLogicalIds rs GoMap.empty = .ok m1) (k : String)
    (hk : some k ∉ rs.map StackResource.LogicalResourceId) : m1.get k = "" := by
  simp [GoMap.get, seedLogicalIds_entry_of_absent rs m1 h k hk]

theorem sample_bare_run_isOk :
    isOk (mapTfResourceIdsToPhysicalIds sampleEc2 sampleResolver logicalIdToTfResourceId
      sampleStacks bareResources []) = true := by decide

/-! ## Claims on the returned map -/

/-- C11: on a stack on which `mapTfResourceIdsToPhysicalIds` returns, for every pair
`(L, A)` of the table the returned map has an entry at `A` exactly when the
accumulator's value for `L` is non-empty, and the entry is then that value; the
addresses of the table are pairwise distinct, so that no entry is overwritten. In
particular there is no entry at `module.vpc.aws_flow_log.main` when the stack has
no `FlowLogsVpcEnable` record. -/
theorem entry_iff_value_nonempty (ec2 : Ec2Client) (client : Route53ResolverClient)
    (order : List (String × String)) (so : DescribeStacksOutput)
    (sro : DescribeStackResourcesOutput) (log log1 : List Request) (out acc : GoMap)
    (hperm : order.Perm logicalIdToTfResourceId)
    (h : mapTfResourceIdsToPhysicalIds ec2 client order so sro log = .ok (out, log1))
    (hacc : logicalIdsToPhysicalIds ec2 so sro = .ok acc) :
    (∀ l a, (l, a) ∈ logicalIdToTfResourceId →
      (out.hasKey a ↔ acc.get l ≠ "") ∧ (acc.get l ≠ "" → out.entry a = some (acc.get l))) ∧
    (logicalIdToTfResourceId.map Prod.snd).Nodup ∧
    (some "FlowLogsVpcEnable" ∉ sro.StackResources.map StackResource.LogicalResourceId →
      out.entry "module.vpc.aws_flow_log.main" = none) := by
  have hentry := mapTfResourceIdsToPhysicalIds_entry_of_table ec2 client order so sro log log1
    out acc hperm h hacc
  refine ⟨?_, table_addresses_nodup, ?_⟩
  · intro l a hla
    have e := hentry l a hla
    constructor
    · unfold GoMap.hasKey
      rw [e]
      by_cases hv : acc.get l ≠ ""
      · simp [hv]
      · simp [hv]
    · intro hv
      rw [e, if_pos hv]
  · intro habsent
    obtain ⟨ip, tgw, msk, m, ing, eg, dhcp, nacl, _, _, _, hm, _, _, _, hdef⟩ :=
      logicalIdsToPhysicalIds_eq_ok _ _ _ _ hacc
    have hflow : acc.get "FlowLogsVpcEnable" = "" := by
      rw [hdef]
      simp [seedLogicalIds_get_of_absent _ _ hm _ habsent]
    rw [hentry "FlowLogsVpcEnable" "module.vpc.aws_flow_log.main" (by decide)]
    simp [hflow]

/-- C11 at the sample account, which has a `VPC` record and no `FlowLogsVpcEnable`
record: the run returns, with the VPC entered and no flow-log entry. -/
theorem entry_iff_value_nonempty_witness :
    logicalIdToTfResourceId.Perm logicalIdToTfResourceId ∧
    some "FlowLogsVpcEnable" ∉
      sampleResources.StackResources.map StackResource.LogicalResourceId ∧
    ∃ acc out log1,
      logicalIdsToPhysicalIds sampleEc2 sampleStacks sampleResources = .ok acc ∧
      mapTfResourceIdsToPhysicalIds sampleEc2 sampleResolver logicalIdToTfResourceId
        sampleStacks sampleResources [] = .ok (out, log1) ∧
      (out.hasKey "module.vpc.aws_vpc.main" ↔ acc.get "VPC" ≠ "") ∧
      out.entry "module.vpc.aws_flow_log.main" = none := by
  obtain ⟨⟨out, log1⟩, h⟩ := exists_of_isOk sample_run_isOk
  obtain ⟨acc, _, _, _, _, _, _, _, hacc, _⟩ :=
    (mapTfResourceIdsToPhysicalIds_eq_ok _ _ _ _ _ _ _ _).mp h
  obtain ⟨h1, _, h3⟩ := entry_iff_value_nonempty sampleEc2 sampleResolver
    logicalIdToTfResourceId sampleStacks sampleResources [] log1 out acc (List.Perm.refl _) h hacc
  exact ⟨List.Perm.refl _, by decide, acc, out, log1, hacc, h,
    (h1 "VPC" "module.vpc.aws_vpc.main" (by decide)).1, h3 (by decide)⟩

/-- C13: on every stack on which `mapTfResourceIdsToPhysicalIds` returns, the
returned map has entries at the addresses of `SubnetRouteAssociation1`-`3`, `Route`,
`TgwRoute`, `TgwRouteAssocation`, `TgwRoutePropagation` and
`TgwMSKAttachmentPropagation`, whatever the stack's resources are; without a
`Subnet1` and a `RouteTable` record the first association's entry is `/` and the
route's entry is `_0.0.0.0/0`. -/
theorem derived_entries_always_present (ec2 : Ec2Client) (client : Route53ResolverClient)
    (order : List (String × String)) (so : DescribeStacksOutput)
    (sro : DescribeStackResourcesOutput) (log log1 : List Request) (out : GoMap)
    (hperm : order.Perm logicalIdToTfResourceId)
    (h : mapTfResourceIdsToPhysicalIds ec2 client order so sro log = .ok (out, log1)) :
    (out.hasKey "module.vpc.aws_route_table_association.rt_association_1" ∧
      out.hasKey "module.vpc.aws_route_table_association.rt_association_2" ∧
      out.hasKey "module.vpc.aws_route_table_association.rt_association_3" ∧
      out.hasKey "module.vpc.aws_route.main" ∧
      out.hasKey "module.vpc.aws_ec2_transit_gateway_route.main" ∧
      out.hasKey "module.vpc.aws_ec2_transit_gateway_route_table_association.main" ∧
      out.hasKey "module.vpc.aws_ec2_transit_gateway_route_table_propagation.main" ∧
      out.hasKey "module.vpc.aws_ec2_transit_gateway_route_table_propagation.msk") ∧
    (some "Subnet1" ∉ sro.StackResources.map StackResource.LogicalResourceId →
      some "RouteTable" ∉ sro.StackResources.map StackResource.LogicalResourceId →
      out.entry "module.vpc.aws_route_table_association.rt_association_1" = some "/" ∧
      out.entry "module.vpc.aws_route.main" = some "_0.0.0.0/0") := by
  obtain ⟨acc, _, _, _, _, _, _, _, hacc, _⟩ :=
    (mapTfResourceIdsToPhysicalIds_eq_ok _ _ _ _ _ _ _ _).mp h
  obtain ⟨ip, tgw, msk, m, ing, eg, dhcp, nacl, _, _, _, hm, _, _, _, hdef⟩ :=
    logicalIdsToPhysicalIds_eq_ok _ _ _ _ hacc
  have hentry := mapTfResourceIdsToPhysicalIds_entry_of_table ec2 client order so sro log log1
    out acc hperm h hacc
  have g1 : acc.get "SubnetRouteAssociation1" = m.get "Subnet1" ++ "/" ++ m.get "RouteTable" := by
    rw [hdef]; simp
  have g2 : acc.get "SubnetRouteAssociation2" = m.get "Subnet2" ++ "/" ++ m.get "RouteTable" := by
    rw [hdef]; simp
  have g3 : acc.get "SubnetRouteAssociation3" = m.get "Subnet3" ++ "/" ++ m.get "RouteTable" := by
    rw [hdef]; simp
  have g4 : acc.get "Route" = m.get "RouteTable" ++ "_0.0.0.0/0" ++ "" := by
    rw [hdef]; simp
  have g5 : acc.get "TgwRoute" = tgw ++ "_" ++ ip := by
    rw [hdef]; simp
  have g6 : acc.get "TgwRouteAssocation" = tgw ++ "_" ++ m.get "TgwAttach" := by
    rw [hdef]; simp
  have g7 : acc.get "TgwRoutePropagation" = tgw ++ "_" ++ m.get "TgwAttach" := by
    rw [hdef]; simp
  have g8 : acc.get "TgwMSKAttachmentPropagation" = msk ++ "_" ++ m.get "TgwAttach" := by
    rw [hdef]; simp
  have key : ∀ l a s sep t, (l, a) ∈ logicalIdToTfResourceId → acc.get l = s ++ sep ++ t →
      sep ≠ "" → out.entry a = some (s ++ sep ++ t) := by
    intro l a s sep t hla hv hsep
    rw [hentry l a hla, hv, if_pos (append_sep_ne_empty _ _ _ hsep)]
  have k1 := key _ "module.vpc.aws_route_table_association.rt_association_1" _ _ _
    (by decide) g1 (by decide)
  have k2 := key _ "module.vpc.aws_route_table_association.rt_association_2" _ _ _
    (by decide) g2 (by decide)
  have k3 := key _ "module.vpc.aws_route_table_association.rt_association_3" _ _ _
    (by decide) g3 (by decide)
  have k4 := key _ "module.vpc.aws_route.main" _ _ _ (by decide) g4 (by decide)
  have k5 := key _ "module.vpc.aws_ec2_transit_gateway_route.main" _ _ _ (by decide) g5
    (by decide)
  have k6 := key _ "module.vpc.aws_ec2_transit_gateway_route_table_association.main" _ _ _
    (by decide) g6 (by decide)
  have k7 := key _ "module.vpc.aws_ec2_transit_gateway_route_table_propagation.main" _ _ _
    (by decide) g7 (by decide)
  have k8 := key _ "module.vpc.aws_ec2_transit_gateway_route_table_propagation.msk" _ _ _
    (by decide) g8 (by decide)
  refine ⟨⟨?_, ?_, ?_, ?_, ?_, ?_, ?_, ?_⟩, ?_⟩
  · unfold GoMap.hasKey; rw [k1]; simp
  · unfold GoMap.hasKey; rw [k2]; simp
  · unfold GoMap.hasKey; rw [k3]; simp
  · unfold GoMap.hasKey; rw [k4]; simp
  · unfold GoMap.hasKey; rw [k5]; simp
  · unfold GoMap.hasKey; rw [k6]; simp
  · unfold GoMap.hasKey; rw [k7]; simp
  · unfold GoMap.hasKey; rw [k8]; simp
  · intro hs hr
    rw [k1, k4, seedLogicalIds_get_of_absent _ _ hm _ hs, seedLogicalIds_get_of_absent _ _ hm _ hr]
    exact ⟨rfl, rfl⟩

/-- C13 at a stack without any resource record: the run returns, the first
association's entry is `/` and the route's entry is `_0.0.0.0/0`. -/
theorem derived_entries_always_present_witness :
    logicalIdToTfResourceId.Perm logicalIdToTfResourceId ∧
    ∃ out log1,
      mapTfResourceIdsToPhysicalIds sampleEc2 sampleResolver logicalIdToTfResourceId
        sampleStacks bareResources [] = .ok (out, log1) ∧
      out.hasKey "module.vpc.aws_ec2_transit_gateway_route.main" ∧
      out.entry "module.vpc.aws_route_table_association.rt_association_1" = some "/" ∧
      out.entry "module.vpc.aws_route.main" = some "_0.0.0.0/0" := by
  obtain ⟨⟨out, log1⟩, h⟩ := exists_of_isOk sample_bare_run_isOk
  obtain ⟨hkeys, hbare⟩ := derived_entries_always_present sampleEc2 sampleResolver
    logicalIdToTfResourceId sampleStacks bareResources [] log1 out (List.Perm.refl _) h
  obtain ⟨e1, e2⟩ := hbare (by decide) (by decide)
  exact ⟨List.Perm.refl _, out, log1, h, hkeys.2.2.2.2.1, e1, e2⟩

/-! ## Claims on the security-group rules -/

/-- A listing in which every rule carries its flag, with exactly one ingress and
exactly one egress rule, is these two rules in one of the two orders. -/
theorem rules_of_one_each (rules : List SecurityGroupRule) (ing eg : SecurityGroupRule)
    (hflags : ∀ r ∈ rules, r.IsEgress ≠ none)
    (hing : rules.filter (fun r => decide (r.IsEgress = some false)) = [ing])
    (heg : rules.filter (fun r => decide (r.IsEgress = some true)) = [eg]) :
    rules = [ing, eg] ∨ rules = [eg, ing] := by
  have hflag : ∀ r ∈ rules, r.IsEgress = some false ∨ r.IsEgress = some true := by
    intro r hr
    cases hf : r.IsEgress with
    | none => exact absurd hf (hflags r hr)
    | some b => cases b <;> simp
  match rules, hflag, hing, heg with
  | [], _, hing, _ => simp at hing
  | [a], hflag, hing, heg =>
    rcases hflag a (by simp) with ha | ha <;> simp [List.filter, ha] at hing heg
  | [a, b], hflag, hing, heg =>
    rcases hflag a (by simp) with ha | ha <;> rcases hflag b (by simp) with hb | hb <;>
      simp [List.filter, ha, hb] at hing heg
    · left; rw [hing, heg]
    · right; rw [hing, heg]
  | a :: b :: c :: rest, hflag, hing, heg =>
    rcases hflag a (by simp) with ha | ha <;> rcases hflag b (by simp) with hb | hb <;>
      rcases hflag c (by simp) with hc | hc <;>
      simp [List.filter, ha, hb, hc] at hing heg

/-- The loop over an ingress rule followed by an egress rule. -/
theorem classifySecurityGroupRules_ingress_egress (ing eg : SecurityGroupRule) (i e : String)
    (hif : ing.IsEgress = some false) (hef : eg.IsEgress = some true)
    (hi : formatSecurityGroupRuleId ing "ingress" = .ok i)
    (he : formatSecurityGroupRuleId eg "egress" = .ok e) :
    classifySecurityGroupRules [ing, eg] ("", "") = .ok (i, e) := by
  simp [classifySecurityGroupRules, hif, hef, hi, he, deref, bind, Except.bind]

/-- The loop over an egress rule followed by an ingress rule. -/
theorem classifySecurityGroupRules_egress_ingress (ing eg : SecurityGroupRule) (i e : String)
    (hif : ing.IsEgress = some false) (hef : eg.IsEgress = some true)
    (hi : formatSecurityGroupRuleId ing "ingress" = .ok i)
    (he : formatSecurityGroupRuleId eg "egress" = .ok e) :
    classifySecurityGroupRules [eg, ing] ("", "") = .ok (i, e) := by
  simp [classifySecurityGroupRules, hif, hef, hi, he, deref, bind, Except.bind]

/-- C12: when the rules listed for the base group are, in either order, exactly one
rule with `IsEgress` false and exactly one with `IsEgress` true,
`getSecurityGroupRulePhysicalIds` returns the ingress rule formatted as `ingress`
paired with the egress rule formatted as `egress`, and in the accumulator these are
the values of `SgBaseIngressV4` and `SgBaseEgress`. -/
theorem security_group_rule_ids (ec2 : Ec2Client) (group : String)
    (rules : List SecurityGroupRule) (ing eg : SecurityGroupRule) (i e : String)
    (hrules : ec2.DescribeSecurityGroupRules group = .ok rules)
    (hflags : ∀ r ∈ rules, r.IsEgress ≠ none)
    (hing : rules.filter (fun r => decide (r.IsEgress = some false)) = [ing])
    (heg : rules.filter (fun r => decide (r.IsEgress = some true)) = [eg])
    (hi : formatSecurityGroupRuleId ing "ingress" = .ok i)
    (he : formatSecurityGroupRuleId eg "egress" = .ok e) :
    getSecurityGroupRulePhysicalIds ec2 group = .ok (i, e) ∧
    (∀ so sro acc, logicalIdsToPhysicalIds ec2 so sro = .ok acc → acc.get "SgBase" = group →
      acc.get "SgBaseIngressV4" = i ∧ acc.get "SgBaseEgress" = e) := by
  have hif : ing.IsEgress = some false := by
    have : ing ∈ rules.filter (fun r => decide (r.IsEgress = some false)) := by
      rw [hing]; exact List.mem_singleton_self _
    simpa using (List.mem_filter.mp this).2
  have hef : eg.IsEgress = some true := by
    have : eg ∈ rules.filter (fun r => decide (r.IsEgress = some true)) := by
      rw [heg]; exact List.mem_singleton_self _
    simpa using (List.mem_filter.mp this).2
  have hget : getSecurityGroupRulePhysicalIds ec2 group = .ok (i, e) := by
    simp only [getSecurityGroupRulePhysicalIds, hrules, Check, bind, Except.bind]
    rcases rules_of_one_each rules ing eg hflags hing heg with hr | hr
    · rw [hr]; exact classifySecurityGroupRules_ingress_egress ing eg i e hif hef hi he
    · rw [hr]; exact classifySecurityGroupRules_egress_ingress ing eg i e hif hef hi he
  refine ⟨hget, ?_⟩
  intro so sro acc hacc hgroup
  obtain ⟨ip, tgw, msk, m, i1, e1, dhcp, nacl, _, _, _, _, hsg, _, _, hdef⟩ :=
    logicalIdsToPhysicalIds_eq_ok _ _ _ _ hacc
  have hbase : acc.get "SgBase" = m.get "SgBase" := by
    rw [hdef]; simp
  rw [← hbase, hgroup, hget] at hsg
  injection hsg with hsg
  injection hsg with h1 h2
  subst h1; subst h2
  rw [hdef]
  simp

/-- C12 at the sample account, whose endpoint lists the ingress rule first, and at
an endpoint that lists the egress rule first: the same pair either way. -/
theorem security_group_rule_ids_witness :
    getSecurityGroupRulePhysicalIds sampleEc2 "sg-1"
      = .ok ("sg-1_ingress_all_0_0_10.0.0.0/8", "sg-1_egress_tcp_443_443_0.0.0.0/0") ∧
    getSecurityGroupRulePhysicalIds egressFirstEc2 "sg-1"
      = .ok ("sg-1_ingress_all_0_0_10.0.0.0/8", "sg-1_egress_tcp_443_443_0.0.0.0/0") ∧
    ∃ acc, logicalIdsToPhysicalIds sampleEc2 sampleStacks sampleResources = .ok acc ∧
      acc.get "SgBaseIngressV4" = "sg-1_ingress_all_0_0_10.0.0.0/8" ∧
      acc.get "SgBaseEgress" = "sg-1_egress_tcp_443_443_0.0.0.0/0" := by
  have h1 := security_group_rule_ids sampleEc2 "sg-1" _
    ⟨some "sg-1", some false, some "-1", some (-1), some (-1), some "10.0.0.0/8"⟩
    ⟨some "sg-1", some true, some "tcp", some 443, some 443, some "0.0.0.0/0"⟩
    "sg-1_ingress_all_0_0_10.0.0.0/8" "sg-1_egress_tcp_443_443_0.0.0.0/0"
    rfl (by decide) (by decide) (by decide) (by decide) (by decide)
  have h2 := security_group_rule_ids egressFirstEc2 "sg-1" _
    ⟨some "sg-1", some false, some "-1", some (-1), some (-1), some "10.0.0.0/8"⟩
    ⟨some "sg-1", some true, some "tcp", some 443, some 443, some "0.0.0.0/0"⟩
    "sg-1_ingress_all_0_0_10.0.0.0/8" "sg-1_egress_tcp_443_443_0.0.0.0/0"
    rfl (by decide) (by decide) (by decide) (by decide) (by decide)
  obtain ⟨⟨out, log1⟩, h⟩ := exists_of_isOk sample_run_isOk
  obtain ⟨acc, _, _, _, _, _, _, _, hacc, _⟩ :=
    (mapTfResourceIdsToPhysicalIds_eq_ok _ _ _ _ _ _ _ _).mp h
  have hbase : acc.get "SgBase" = "sg-1" := by
    obtain ⟨ip, tgw, msk, m, i1, e1, dhcp, nacl, _, _, _, hm, _, _, _, hdef⟩ :=
      logicalIdsToPhysicalIds_eq_ok _ _ _ _ hacc
    have hphys := seedLogicalIds_get_empty "SgBase" (by decide) _ _ hm (by decide)
    have hval : getPhysicalResourceIdByLogicalResourceId sampleResources.StackResources "SgBase"
        = .ok "sg-1" := by decide
    rw [hval] at hphys
    injection hphys with hphys
    rw [hdef]
    simpa using hphys.symm
  exact ⟨h1.1, h2.1, acc, hacc, h1.2 _ _ acc hacc hbase⟩

/-! ## Reading a parameter -/

/-- The first element of a filtered list is what `find?` finds. -/
theorem head?_filter_eq_find? {α : Type} (p : α → Bool) (xs : List α) :
    (xs.filter p).head? = xs.find? p := by
  induction xs with
  | nil => rfl
  | cons x xs ih =>
    cases hp : p x with
    | true => simp [List.filter, List.find?, hp]
    | false => simp [List.filter, List.find?, hp, ih]

/-- `Filter` by parameter key returns exactly when every parameter carries its key,
and then gives the parameters with that key, in order. -/
theorem Filter_key_eq_ok (key : String) (ps : List Parameter) :
    ∀ l, Filter ps (fun param => deref param.ParameterKey >>= fun k =>
        (pure (decide (k = key)) : Except Fault Bool)) = .ok l ↔
      (∀ q ∈ ps, q.ParameterKey ≠ none) ∧
        l = ps.filter (fun q => decide (q.ParameterKey = some key)) := by
  induction ps with
  | nil =>
    intro l
    simp only [Filter, List.filter]
    constructor
    · intro h; injection h with h; exact ⟨by simp, h.symm⟩
    · rintro ⟨_, rfl⟩; rfl
  | cons q ps ih =>
    intro l
    simp only [Filter, Except_bind_eq_ok, deref_eq_ok, Except_pure_eq_ok]
    constructor
    · rintro ⟨keep, ⟨k, hk, hkeep⟩, out, hout, hl⟩
      obtain ⟨hall, hfilter⟩ := (ih out).mp hout
      refine ⟨?_, ?_⟩
      · intro r hr
        rcases List.mem_cons.mp hr with rfl | hr
        · rw [hk]; simp
        · exact hall r hr
      · subst hkeep
        by_cases hkk : k = key
        · subst hkk
          simp only [decide_True, if_true, Except_pure_eq_ok] at hl
          simp [List.filter, hk, ← hl, hfilter]
        · simp only [hkk, decide_False, Bool.false_eq_true, if_false, Except_pure_eq_ok] at hl
          simp [List.filter, hk, hkk, ← hl, hfilter]
    · rintro ⟨hall, hl⟩
      obtain ⟨k, hk⟩ := Option.ne_none_iff_exists'.mp (hall q (List.mem_cons_self _ _))
      refine ⟨decide (k = key), ⟨k, hk, rfl⟩,
        ps.filter (fun r => decide (r.ParameterKey = some key)),
        (ih _).mpr ⟨fun r hr => hall r (List.mem_cons_of_mem _ hr), rfl⟩, ?_⟩
      by_cases hkk : k = key
      · subst hkk
        simp only [decide_True, if_true, Except_pure_eq_ok]
        simp [hl, List.filter, hk]
      · simp only [hkk, decide_False, Bool.false_eq_true, if_false, Except_pure_eq_ok]
        simp [hl, List.filter, hk, hkk]

/-- What `GetParameter` returns on a described stack: the first parameter with the
key, provided every parameter carries its key. -/
theorem GetParameter_eq_ok (stack : Stack) (others : List Stack) (key : String)
    (p : Parameter) :
    GetParameter ⟨stack :: others⟩ key = .ok p ↔
      (∀ q ∈ stack.Parameters, q.ParameterKey ≠ none) ∧
        stack.Parameters.find? (fun q => decide (q.ParameterKey = some key)) = some p := by
  have hunfold : GetParameter ⟨stack :: others⟩ key =
      (Filter stack.Parameters (fun param => deref param.ParameterKey >>= fun k =>
        (pure (decide (k = key)) : Except Fault Bool)) >>= index0) := rfl
  rw [hunfold, Except_bind_eq_ok]
  constructor
  · rintro ⟨l, hl, hidx⟩
    obtain ⟨hall, rfl⟩ := (Filter_key_eq_ok key _ l).mp hl
    rw [index0_eq_ok, head?_filter_eq_find?] at hidx
    exact ⟨hall, hidx⟩
  · rintro ⟨hall, hfind⟩
    refine ⟨_, (Filter_key_eq_ok key _ _).mpr ⟨hall, rfl⟩, ?_⟩
    rw [index0_eq_ok, head?_filter_eq_find?]
    exact hfind

/-- With every parameter keyed and none under the key, `GetParameter` indexes an
empty filter result. -/
theorem GetParameter_of_missing (stack : Stack) (others : List Stack) (key : String)
    (hall : ∀ q ∈ stack.Parameters, q.ParameterKey ≠ none)
    (hmiss : some key ∉ stack.Parameters.map Parameter.ParameterKey) :
    GetParameter ⟨stack :: others⟩ key = .error .indexOutOfRange := by
  have hunfold : GetParameter ⟨stack :: others⟩ key =
      (Filter stack.Parameters (fun param => deref param.ParameterKey >>= fun k =>
        (pure (decide (k = key)) : Except Fault Bool)) >>= index0) := rfl
  have hnil : stack.Parameters.filter (fun q => decide (q.ParameterKey = some key)) = [] := by
    rw [List.filter_eq_nil_iff]
    intro q hq
    simp only [decide_eq_true_eq]
    intro e
    exact hmiss (List.mem_map.mpr ⟨q, hq, e⟩)
  rw [hunfold, (Filter_key_eq_ok key _ _).mpr ⟨hall, rfl⟩, hnil]
  rfl

/-- A key that `find?` finds is a key of the list. -/
theorem key_mem_of_find? (ps : List Parameter) (key : String) (p : Parameter)
    (h : ps.find? (fun q => decide (q.ParameterKey = some key)) = some p) :
    some key ∈ ps.map Parameter.ParameterKey := by
  have hp : p ∈ ps := List.mem_of_find?_eq_some h
  have hk := List.find?_some h
  simp only [decide_eq_true_eq] at hk
  exact List.mem_map.mpr ⟨p, hp, hk⟩

/-- A key that the list has is found by `find?`. -/
theorem find?_of_key_mem (ps : List Parameter) (key : String)
    (h : some key ∈ ps.map Parameter.ParameterKey) :
    ∃ p, ps.find? (fun q => decide (q.ParameterKey = some key)) = some p := by
  cases hf : ps.find? (fun q => decide (q.ParameterKey = some key)) with
  | some p => exact ⟨p, rfl⟩
  | none =>
    exfalso
    obtain ⟨q, hq, hk⟩ := List.mem_map.mp h
    rw [List.find?_eq_none] at hf
    exact hf q hq (by simpa using hk)

/-- The parameter loop of the materializer leaves alone a key that no parameter
has. -/
theorem collectParams_entry_of_absent (k : String) (ps : List Parameter) :
    ∀ (m m1 : GoMap), collectParams ps m = .ok m1 →
      some k ∉ ps.map Parameter.ParameterKey → m1.entry k = m.entry k := by
  induction ps with
  | nil =>
    intro m m1 h _
    simp only [collectParams] at h
    cases h
    rfl
  | cons p ps ih =>
    intro m m1 h hk
    obtain ⟨kk, v, hkk, _, h1⟩ := (collectParams_cons _ _ _ _).mp h
    simp only [List.map_cons, List.mem_cons, not_or] at hk
    rw [ih _ _ h1 hk.2]
    have hne : k ≠ kk := by
      rintro rfl
      exact hk.1 hkk.symm
    simp [hne]

/-- A computation that returns no value stopped with a fault. -/
theorem exists_error_of_not_ok {ε α : Type} {x : Except ε α} (h : ∀ a, x ≠ .ok a) :
    ∃ e, x = .error e := by
  cases x with
  | ok a => exact absurd rfl (h a)
  | error e => exact ⟨e, rfl⟩

/-- What a returning accumulator part has read: an `IpRange` parameter, and a first
`TgwRouteTableID` and a first `TgwMSKRouteTableID` parameter with resolved values. -/
theorem logicalIdsToPhysicalIds_parameters (ec2 : Ec2Client) (stack : Stack)
    (others : List Stack) (sro : DescribeStackResourcesOutput) (acc : GoMap)
    (h : logicalIdsToPhysicalIds ec2 ⟨stack :: others⟩ sro = .ok acc) :
    some "IpRange" ∈ stack.Parameters.map Parameter.ParameterKey ∧
    (∃ p, stack.Parameters.find? (fun q => decide (q.ParameterKey = some "TgwRouteTableID"))
      = some p ∧ p.ResolvedValue ≠ none) ∧
    (∃ p, stack.Parameters.find? (fun q => decide (q.ParameterKey = some "TgwMSKRouteTableID"))
      = some p ∧ p.ResolvedValue ≠ none) := by
  obtain ⟨ip, tgw, msk, m, ing, eg, dhcp, nacl, hip, htgw, hmsk, _⟩ :=
    logicalIdsToPhysicalIds_eq_ok _ _ _ _ h
  simp only [GetParameterValue, Except_bind_eq_ok, deref_eq_ok] at hip
  simp only [GetParameterResolvedValue, Except_bind_eq_ok, deref_eq_ok] at htgw hmsk
  obtain ⟨p1, hp1, _⟩ := hip
  obtain ⟨p2, hp2, hr2⟩ := htgw
  obtain ⟨p3, hp3, hr3⟩ := hmsk
  refine ⟨key_mem_of_find? _ _ p1 ((GetParameter_eq_ok _ _ _ _).mp hp1).2,
    ⟨p2, ((GetParameter_eq_ok _ _ _ _).mp hp2).2, ?_⟩,
    ⟨p3, ((GetParameter_eq_ok _ _ _ _).mp hp3).2, ?_⟩⟩
  · rw [hr2]; simp
  · rw [hr3]; simp

/-! ## Claims on the parameters the import needs -/

/-- C14: `mapTfResourceIdsToPhysicalIds` returns only if the stack has the
parameters `IpRange`, `TgwRouteTableID` and `TgwMSKRouteTableID` and the two
route-table parameters carry a resolved value. On a stack that misses one of the
three, or whose `TgwRouteTableID` or `TgwMSKRouteTableID` has no resolved value, it
stops with a fault whatever the resources and the endpoints are: `GetParameter`
indexes an empty filter result, `GetParameterResolvedValue` dereferences the absent
value. `initTfVarsFromStackParams` on the same stack returns, with the empty string
for a key the stack misses. -/
theorem import_needs_resolved_route_tables (so : DescribeStacksOutput) (stack : Stack)
    (others : List Stack) (hso : so.Stacks = stack :: others) :
    (∀ ec2 client order sro log out log1,
      mapTfResourceIdsToPhysicalIds ec2 client order so sro log = .ok (out, log1) →
      some "IpRange" ∈ stack.Parameters.map Parameter.ParameterKey ∧
      some "TgwRouteTableID" ∈ stack.Parameters.map Parameter.ParameterKey ∧
      some "TgwMSKRouteTableID" ∈ stack.Parameters.map Parameter.ParameterKey ∧
      (∃ p, stack.Parameters.find? (fun q => decide (q.ParameterKey = some "TgwRouteTableID"))
        = some p ∧ p.ResolvedValue ≠ none) ∧
      (∃ p, stack.Parameters.find?
        (fun q => decide (q.ParameterKey = some "TgwMSKRouteTableID")) = some p ∧
        p.ResolvedValue ≠ none)) ∧
    ((some "IpRange" ∉ stack.Parameters.map Parameter.ParameterKey ∨
        some "TgwRouteTableID" ∉ stack.Parameters.map Parameter.ParameterKey ∨
        some "TgwMSKRouteTableID" ∉ stack.Parameters.map Parameter.ParameterKey) →
      ∀ ec2 client order sro log,
        ∃ e, mapTfResourceIdsToPhysicalIds ec2 client order so sro log = .error e) ∧
    (((∃ p, stack.Parameters.find? (fun q => decide (q.ParameterKey = some "TgwRouteTableID"))
          = some p ∧ p.ResolvedValue = none) ∨
        (∃ p, stack.Parameters.find?
          (fun q => decide (q.ParameterKey = some "TgwMSKRouteTableID")) = some p ∧
          p.ResolvedValue = none)) →
      ∀ ec2 client order sro log,
        ∃ e, mapTfResourceIdsToPhysicalIds ec2 client order so sro log = .error e) ∧
    ((∀ q ∈ stack.Parameters, q.ParameterKey ≠ none) →
      (∀ key, some key ∉ stack.Parameters.map Parameter.ParameterKey →
        GetParameter so key = .error .indexOutOfRange) ∧
      (∀ key p, stack.Parameters.find? (fun q => decide (q.ParameterKey = some key)) = some p →
        p.ResolvedValue = none → GetParameterResolvedValue so key = .error .nilDereference)) ∧
    ((∀ p ∈ stack.Parameters,
        p.ParameterKey ≠ none ∧ (p.ResolvedValue ≠ none ∨ p.ParameterValue ≠ none)) →
      ∃ tfvars, initTfVarsFromStackParams so = .ok tfvars ∧
        (some "IpRange" ∉ stack.Parameters.map Parameter.ParameterKey →
          tfvars.IpRange = "") ∧
        (some "TgwRouteTableID" ∉ stack.Parameters.map Parameter.ParameterKey →
          tfvars.TgwRouteTableID = "") ∧
        (some "TgwMSKRouteTableID" ∉ stack.Parameters.map Parameter.ParameterKey →
          tfvars.TgwMSKRouteTableID = "")) := by
  obtain ⟨described⟩ := so
  simp only at hso
  subst hso
  have honly : ∀ ec2 client order sro log out log1,
      mapTfResourceIdsToPhysicalIds ec2 client order ⟨stack :: others⟩ sro log = .ok (out, log1) →
      some "IpRange" ∈ stack.Parameters.map Parameter.ParameterKey ∧
      (∃ p, stack.Parameters.find? (fun q => decide (q.ParameterKey = some "TgwRouteTableID"))
        = some p ∧ p.ResolvedValue ≠ none) ∧
      (∃ p, stack.Parameters.find?
        (fun q => decide (q.ParameterKey = some "TgwMSKRouteTableID")) = some p ∧
        p.ResolvedValue ≠ none) := by
    intro ec2 client order sro log out log1 h
    obtain ⟨acc, _, _, _, _, _, _, _, hacc, _⟩ :=
      (mapTfResourceIdsToPhysicalIds_eq_ok _ _ _ _ _ _ _ _).mp h
    exact logicalIdsToPhysicalIds_parameters ec2 stack others sro acc hacc
  refine ⟨?_, ?_, ?_, ?_, ?_⟩
  · intro ec2 client order sro log out log1 h
    obtain ⟨h1, ⟨p2, hf2, hr2⟩, ⟨p3, hf3, hr3⟩⟩ := honly ec2 client order sro log out log1 h
    exact ⟨h1, key_mem_of_find? _ _ p2 hf2, key_mem_of_find? _ _ p3 hf3, ⟨p2, hf2, hr2⟩,
      ⟨p3, hf3, hr3⟩⟩
  · intro hmiss ec2 client order sro log
    apply exists_error_of_not_ok
    rintro ⟨out, log1⟩ h
    obtain ⟨h1, ⟨p2, hf2, _⟩, ⟨p3, hf3, _⟩⟩ := honly ec2 client order sro log out log1 h
    rcases hmiss with hm | hm | hm
    · exact hm h1
    · exact hm (key_mem_of_find? _ _ p2 hf2)
    · exact hm (key_mem_of_find? _ _ p3 hf3)
  · intro hunres ec2 client order sro log
    apply exists_error_of_not_ok
    rintro ⟨out, log1⟩ h
    obtain ⟨_, ⟨p2, hf2, hr2⟩, ⟨p3, hf3, hr3⟩⟩ := honly ec2 client order sro log out log1 h
    rcases hunres with ⟨p, hf, hr⟩ | ⟨p, hf, hr⟩
    · rw [hf2] at hf
      injection hf with hf
      subst hf
      exact hr2 hr
    · rw [hf3] at hf
      injection hf with hf
      subst hf
      exact hr3 hr
  · intro hkeyed
    constructor
    · intro key hmiss
      exact GetParameter_of_missing stack others key hkeyed hmiss
    · intro key p hf hr
      simp only [GetParameterResolvedValue, (GetParameter_eq_ok stack others key p).mpr
        ⟨hkeyed, hf⟩, hr, deref, bind, Except.bind]
  · intro hpop
    obtain ⟨params, hparams⟩ := collectParams_total stack.Parameters GoMap.empty hpop
    obtain ⟨tfvars, hinit, _, _, _, _, f5, _, _, _, f9, f10, _⟩ :=
      initTfVarsFromStackParams_of_params stack others params hparams
    have hempty : ∀ k, some k ∉ stack.Parameters.map Parameter.ParameterKey →
        params.get k = "" := by
      intro k hk
      simp [GoMap.get, collectParams_entry_of_absent k _ _ _ hparams hk]
    exact ⟨tfvars, hinit, fun hk => f5.trans (hempty _ hk), fun hk => f9.trans (hempty _ hk),
      fun hk => f10.trans (hempty _ hk)⟩

/-- C14 at the stack of the specification's first scenario, which has `IpRange` but
neither route-table parameter: the import stops with a fault on the sample
endpoints, while the materializer returns a record with empty route-table ids; and
at a stack whose `TgwRouteTableID` has a raw value only, where the import stops
too. -/
theorem import_needs_resolved_route_tables_witness :
    (∃ e, mapTfResourceIdsToPhysicalIds sampleEc2 sampleResolver logicalIdToTfResourceId
      scenarioStacks sampleResources [] = .error e) ∧
    GetParameter scenarioStacks "TgwRouteTableID" = .error .indexOutOfRange ∧
    (∃ tfvars, initTfVarsFromStackParams scenarioStacks = .ok tfvars ∧
      tfvars.TgwRouteTableID = "" ∧ tfvars.TgwMSKRouteTableID = "") ∧
    (∃ e, mapTfResourceIdsToPhysicalIds sampleEc2 sampleResolver logicalIdToTfResourceId
      unresolvedStacks sampleResources [] = .error e) ∧
    GetParameterResolvedValue unresolvedStacks "TgwRouteTableID" = .error .nilDereference := by
  obtain ⟨_, hmiss, _, hfault, hmat⟩ := import_needs_resolved_route_tables scenarioStacks
    { Parameters := [
        ⟨some "SubnetCidrBits", some "4", none⟩,
        ⟨some "IpRange", some "10.0.0.0/16", none⟩ ],
      Tags := [⟨some "env", some "prod"⟩] } [] rfl
  obtain ⟨_, _, hunres, hfault2, _⟩ := import_needs_resolved_route_tables unresolvedStacks
    { Parameters := [
        ⟨some "IpRange", some "10.0.0.0/16", none⟩,
        ⟨some "TgwRouteTableID", some "/tgw/route-table", none⟩,
        ⟨some "TgwMSKRouteTableID", some "/tgw/msk-route-table", some "tgw-rtb-2"⟩ ],
      Tags := [] } [] rfl
  obtain ⟨tfvars, hinit, _, h2, h3⟩ := hmat (by decide)
  exact ⟨hmiss (Or.inr (Or.inl (by decide))) sampleEc2 sampleResolver logicalIdToTfResourceId
      sampleResources [],
    (hfault (by decide)).1 "TgwRouteTableID" (by decide),
    ⟨tfvars, hinit, h2 (by decide), h3 (by decide)⟩,
    hunres (Or.inl ⟨⟨some "TgwRouteTableID", some "/tgw/route-table", none⟩, by decide, rfl⟩)
      sampleEc2 sampleResolver logicalIdToTfResourceId sampleResources [],
    (hfault2 (by decide)).2 "TgwRouteTableID"
      ⟨some "TgwRouteTableID", some "/tgw/route-table", none⟩ (by decide) rfl⟩

end VpcImportCli
